import Mathlib

/-!
# VexMail mailbox-synchronization engine: a shallow embedding

This file embeds, in Lean, the parts of the VexMail repository that the
verified properties talk about:

* `email_sync_service.py` — `EmailSyncService.generate_email_id`,
  `store_email_safely`, `process_attachments`, `sync_emails`;
* `imap_manager.py` — `IMAPManager._parse_email`, `fetch_emails`,
  `execute_operation`, and `IMAPConnectionPool.get_connection` /
  `cleanup_stale_connections`;
* `app.py` — the mutation endpoints `mark_as_read`, `mark_as_unread`,
  `delete_email`, `star_email`;
* `tasks.py` / `background_tasks.py` — `process_pending_operations`;
* `services/realtime_service.py` — `RealtimeService.register_client` and
  `broadcast_event`.

The database session is modelled as an explicit state (`DBState`) holding the
`emails`, `email_attachments` and `email_operations` tables as lists in row
insertion order, plus the set of Redis detail-cache keys.  External
collaborators are modelled as parameters: the body parser
(`email_parser.parse_email`, which returns an empty dict — here `none` — on
any parse exception) is a function argument, and the IMAP server's answer to
a `UID STORE` command is a boolean oracle.  `hashlib.md5` is modelled as an
injective encoding of its input string: every property proved here depends
only on the hash being a deterministic function of its input, not on its
bit-level value.  Timestamps (`datetime.utcnow`, `time.time`) are threaded as
explicit `now` arguments.
-/

/-- Model of `hashlib.md5(s).hexdigest()`: an injective, deterministic
encoding of the input string. -/
def md5 (s : String) : String := "md5:" ++ s

/-- `EmailSyncService.generate_email_id` (email_sync_service.py, lines
28-33): the md5 of the message id when it is non-empty, otherwise the md5 of
the uid joined with the current timestamp. -/
def generate_email_id (message_id uid : String) (now : String) : String :=
  if message_id = "" then md5 (uid ++ "_" ++ now) else md5 message_id

/-- One attachment descriptor inside a parsed message (the dicts in
`parsed_email['attachments']`). `content` is the base64 payload; the empty
string models a missing `content` key. -/
structure AttachmentData where
  filename : String
  content : String
  content_type : String
  size : Nat
deriving Repr, DecidableEq

/-- The result of `email_parser.parse_email` (the fields
`store_email_safely` reads).  A parse failure (the parser returning the
empty dict `{}`) is modelled as `none` at the use sites. -/
structure ParsedEmail where
  subject : String
  from_name : String
  from_email : String
  body : String
  date : String
  attachments : List AttachmentData
deriving Repr, DecidableEq

/-- One row of the `emails` table (models.py `Email`); only the columns the
verified properties mention are carried.  `id` is the content fingerprint
(`generate_email_id`). -/
structure EmailRec where
  id : String
  uid_validity : String
  message_id : String
  subject : String
  body : String
  is_read : Bool
  is_deleted : Bool
  is_flagged : Bool
  is_starred : Bool
  attachment_count : Nat
deriving Repr, DecidableEq

/-- One row of the `email_attachments` table (models.py `EmailAttachment`). -/
structure AttachmentRec where
  id : String
  email_id : String
  filename : String
  size : Nat
deriving Repr, DecidableEq

/-- Status column of `email_operations` (models.py `EmailOperation.status`):
the code only ever assigns the strings `pending`, `success` and `failed`. -/
inductive OpStatus
  | pending
  | success
  | failed
deriving Repr, DecidableEq

/-- One row of the `email_operations` table (models.py `EmailOperation`).
`id` is the primary key (a fresh uuid in the code, a `Nat` here);
`email_uid` is the fingerprint of the target email; defaults on creation are
`status = pending`, `retry_count = 0`, `max_retries = 3`. -/
structure OpRec where
  id : Nat
  email_uid : String
  operation_type : String
  status : OpStatus
  retry_count : Nat
  max_retries : Nat
  last_retry : Option String
deriving Repr, DecidableEq

/-- The persistent state: the three tables in row insertion order, plus the
keys currently present in the Redis cache used by `EmailSyncService`
(`cache_email_detail` adds a key, `invalidate_email_list_cache` calls
`cache.clear()` which empties the whole cache). -/
structure DBState where
  emails : List EmailRec
  attachments : List AttachmentRec
  operations : List OpRec
  cacheKeys : List String
deriving Repr, DecidableEq

/-- `Email.query.get` / `find by primary key` on the emails table. -/
def getEmail (s : DBState) (email_id : String) : Option EmailRec :=
  s.emails.find? (fun e => e.id == email_id)

/-- `EmailSyncService.is_email_exists` (lines 35-41). -/
def is_email_exists (s : DBState) (email_id : String) : Bool :=
  s.emails.any (fun e => e.id == email_id)

/-- The `UNIQUE` constraint on `emails.message_id` (models.py, line 15):
whether some row already carries this message id.  `store_email_safely`
always writes a non-NULL string into the column, so inserting a second row
with the same value — including the empty string — violates the constraint
at commit. -/
def message_id_exists (s : DBState) (mid : String) : Bool :=
  s.emails.any (fun e => e.message_id == mid)

/-- `EmailSyncService.cache_email_detail`: stores the detail dict under the
key for this email id. -/
def cache_email_detail (s : DBState) (email_id : String) : DBState :=
  { s with cacheKeys := s.cacheKeys ++ [email_id] }

/-- `EmailSyncService.invalidate_email_list_cache`: calls `cache.clear()`,
emptying the whole cache. -/
def invalidate_email_list_cache (s : DBState) : DBState :=
  { s with cacheKeys := [] }

/-- `EmailSyncService.process_attachments` (lines 191-247): for each
attachment dict, skip it if a row with the same `(email_id, filename)`
already exists, otherwise — when a `content` payload is present — upload the
blob and insert an `EmailAttachment` row whose id is the md5 of
`email_id _ filename _ size`. -/
def attachment_step (e : EmailRec) (st : DBState) (a : AttachmentData) : DBState :=
  if st.attachments.any (fun ar => ar.email_id == e.id && ar.filename == a.filename) then
    st
  else if a.content = "" then
    st
  else
    { st with attachments := st.attachments ++
        [{ id := md5 (e.id ++ "_" ++ a.filename ++ "_" ++ toString a.size),
           email_id := e.id, filename := a.filename, size := a.size }] }

/-- `EmailSyncService.process_attachments`: the loop over the parsed
attachment dicts, one `attachment_step` per dict. -/
def process_attachments (s : DBState) (e : EmailRec) (atts : List AttachmentData) : DBState :=
  atts.foldl (attachment_step e) s

/-- The dict handed to `store_email_safely` (`email_data`), with the keys it
reads via `.get(..., default)`.  A key missing from the producing dict is
modelled by its default value (`""` for strings, `false` for `is_read`). -/
structure EmailData where
  message_id : String
  uid : String
  uid_validity : String
  raw_content : String
  is_read : Bool
deriving Repr, DecidableEq

/-- `EmailSyncService.store_email_safely` (lines 85-189).

* compute the fingerprint with `generate_email_id`;
* if a row with that fingerprint exists, return it and change nothing;
* parse the raw content with `email_parser.parse_email` (the external
  collaborator `parse`); on an empty result return `None` and change
  nothing;
* otherwise try to insert the new row.  The commit raises `IntegrityError`
  when the row violates the `UNIQUE` constraint on `message_id`
  (models.py, line 15) — which happens sequentially whenever a row with the
  same `message_id` string (the empty string included) is already present
  under a *different* fingerprint, e.g. a second fetch of an email with no
  `Message-ID` whose fallback fingerprint took a fresh timestamp.  The
  handler (lines 181-184) rolls the session back and returns
  `Email.query.get(email_id)`, leaving the store unchanged;
* on a successful commit, cache the detail entry, clear the list cache
  (`cache.clear()`), process the attachments, and return the row. -/
def store_email_safely (parse : String → Option ParsedEmail) (now : String)
    (s : DBState) (d : EmailData) : Option EmailRec × DBState :=
  let email_id := generate_email_id d.message_id d.uid now
  if is_email_exists s email_id then
    (getEmail s email_id, s)
  else
    match parse d.raw_content with
    | none => (none, s)
    | some p =>
        if message_id_exists s d.message_id then
          (getEmail s email_id, s)
        else
          let r : EmailRec :=
            { id := email_id, uid_validity := d.uid_validity, message_id := d.message_id,
              subject := p.subject, body := p.body, is_read := d.is_read,
              is_deleted := false, is_flagged := false, is_starred := false,
              attachment_count := p.attachments.length }
          let s1 := { s with emails := s.emails ++ [r] }
          let s2 := cache_email_detail s1 email_id
          let s3 := invalidate_email_list_cache s2
          let s4 := process_attachments s3 r p.attachments
          (some r, s4)

/-- The per-message loop of `EmailSyncService.sync_emails` (lines 279-289):
threads the store state and counts stored (`some`) versus skipped (`none`)
messages. -/
def syncLoop (parse : String → Option ParsedEmail) (now : String) :
    List EmailData → DBState → DBState × Nat × Nat
  | [], s => (s, 0, 0)
  | d :: rest, s =>
      match store_email_safely parse now s d with
      | (some _, s1) =>
          let out := syncLoop parse now rest s1
          (out.1, out.2.1 + 1, out.2.2)
      | (none, s1) =>
          let out := syncLoop parse now rest s1
          (out.1, out.2.1, out.2.2 + 1)

/-- The result dict of `EmailSyncService.sync_emails`; `skipped = none`
models the branch whose dict carries no `skipped` key. -/
structure SyncResult where
  status : String
  message : String
  count : Nat
  skipped : Option Nat
deriving Repr, DecidableEq

/-- `EmailSyncService.sync_emails` (lines 260-309) applied to an
already-fetched batch: an empty batch short-circuits to a success result
with count 0 and no skipped key; otherwise every message goes through
`store_email_safely` and the totals are reported with status `success`. -/
def sync_emails (parse : String → Option ParsedEmail) (now : String)
    (s : DBState) (fetched : List EmailData) : SyncResult × DBState :=
  if fetched.isEmpty then
    ({ status := "success", message := "No emails found", count := 0, skipped := none }, s)
  else
    let out := syncLoop parse now fetched s
    ({ status := "success",
       message := "Processed " ++ toString fetched.length ++ " emails",
       count := out.2.1, skipped := some out.2.2 }, out.1)

/-- One raw message on the server, as seen by `IMAPManager.fetch_emails`
before `_parse_email`. -/
structure RawMsg where
  uid : String
  subject : String
  body : String
  is_read : Bool
deriving Repr, DecidableEq

/-- One iteration of the per-message loop in `IMAPManager.fetch_emails`
(lines 287-306): either the `FETCH` succeeded and `_parse_email` produced a
dict (`ok`), or the `FETCH` returned a non-OK status / raised (`fetchFail`),
or `_parse_email` returned `None` (`parseFail`); in both failure cases the
loop logs and continues with the next message. -/
inductive FetchItem
  | ok (m : RawMsg)
  | fetchFail
  | parseFail
deriving Repr, DecidableEq

/-- `IMAPManager._parse_email` (lines 315-362): builds the per-message dict.
The dict it returns contains the keys `id`, `uid_validity` (set to the
*fetch-time* timestamp `str(int(time.time()))`, line 349), `subject`,
`sender_name`, `sender_email`, `recipient`, `body`, `date`, `is_read` and
`raw_headers` — but no `message_id`, `uid` or `raw_content` key, so the
`EmailData` that reaches `store_email_safely` through this path has those
three fields at their `.get` defaults (the empty string). -/
def imap_parse_email (m : RawMsg) (now : String) : EmailData :=
  { message_id := "", uid := "", uid_validity := now,
    raw_content := "", is_read := m.is_read }

/-- `IMAPManager.fetch_emails` (lines 262-313).  `search = none` models a
connection-level failure (no live connection, or `SEARCH` not OK) raised
before the per-message loop: the outer handler logs it and returns the
messages accumulated so far — the empty list — *without* re-raising.
`search = some items` is the newest-first batch the loop walks; per-message
failures are dropped from the result. -/
def fetch_emails (search : Option (List FetchItem)) (now : String) : List EmailData :=
  match search with
  | none => []
  | some items =>
      items.filterMap (fun it =>
        match it with
        | FetchItem.ok m => some (imap_parse_email m now)
        | FetchItem.fetchFail => none
        | FetchItem.parseFail => none)

/-- `EmailSyncService.sync_emails` end to end: `fetch_emails_from_imap`
(which swallows any exception and yields `[]`) feeding the store loop. -/
def sync_emails_pipeline (parse : String → Option ParsedEmail)
    (search : Option (List FetchItem)) (now : String) (s : DBState) :
    SyncResult × DBState :=
  sync_emails parse now s (fetch_emails search now)

/-- A freshly enqueued `EmailOperation` row with the model defaults
(models.py lines 116-132): status `pending`, `retry_count` 0,
`max_retries` 3. -/
def newOp (opId : Nat) (email_uid operation_type : String) : OpRec :=
  { id := opId, email_uid := email_uid, operation_type := operation_type,
    status := OpStatus.pending, retry_count := 0, max_retries := 3,
    last_retry := none }

/-- Flip `is_read` of the row with the given fingerprint. -/
def setEmailRead (s : DBState) (email_id : String) (v : Bool) : DBState :=
  { s with emails := s.emails.map (fun e => if e.id == email_id then { e with is_read := v } else e) }

/-- `app.py mark_as_read` (lines 203-239): look the email up by fingerprint
(404 when absent, modelled by the `false` flag), optimistically set
`is_read = True`, commit, and enqueue a pending `EmailOperation` of kind
`read`.  The Redis cache invalidation and the published event are effects
outside `DBState`. -/
def mark_as_read (s : DBState) (email_id : String) (opId : Nat) : DBState × Bool :=
  match getEmail s email_id with
  | none => (s, false)
  | some _ =>
      let s1 := setEmailRead s email_id true
      ({ s1 with operations := s1.operations ++ [newOp opId email_id "read"] }, true)

/-- `app.py mark_as_unread` (lines 241-277): like `mark_as_read` with
`is_read = False` and an `unread` operation. -/
def mark_as_unread (s : DBState) (email_id : String) (opId : Nat) : DBState × Bool :=
  match getEmail s email_id with
  | none => (s, false)
  | some _ =>
      let s1 := setEmailRead s email_id false
      ({ s1 with operations := s1.operations ++ [newOp opId email_id "unread"] }, true)

/-- `app.py delete_email` (lines 335-368): optimistically set
`is_deleted = True` (tombstone — the row is kept) and enqueue a pending
`delete` operation. -/
def delete_email (s : DBState) (email_id : String) (opId : Nat) : DBState × Bool :=
  match getEmail s email_id with
  | none => (s, false)
  | some _ =>
      let upd := fun (e : EmailRec) => if e.id == email_id then { e with is_deleted := true } else e
      let s1 := { s with emails := s.emails.map upd }
      ({ s1 with operations := s1.operations ++ [newOp opId email_id "delete"] }, true)

/-- `app.py star_email` (lines 311-333): toggles `is_starred`, commits and
invalidates the cache.  It enqueues no `EmailOperation` — the toggle is
local only. -/
def star_email (s : DBState) (email_id : String) : DBState × Bool :=
  match getEmail s email_id with
  | none => (s, false)
  | some _ =>
      let upd := fun (e : EmailRec) => if e.id == email_id then { e with is_starred := !e.is_starred } else e
      ({ s with emails := s.emails.map upd }, true)

/-- `IMAPManager.execute_operation` (imap_manager.py, lines 402-425): issues
a `UID STORE` (and, for `delete`, an `EXPUNGE`) for the kinds `read`,
`unread` and `delete`; any other operation type returns `False` without a
remote command.  `serverOk` is the oracle for the remote server's answer. -/
def execute_operation (serverOk : String → String → Bool)
    (operation_type email_uid : String) : Bool :=
  if operation_type == "read" || operation_type == "unread" || operation_type == "delete" then
    serverOk operation_type email_uid
  else
    false

/-- One invocation of `imap_manager.execute_operation` by the drain worker:
the remote call as observed by the protocol backend. -/
structure IssuedCall where
  op_id : Nat
  operation_type : String
  email_uid : String
deriving Repr, DecidableEq

/-- Apply an update to every operation row with the given primary key. -/
def updateOp (s : DBState) (opId : Nat) (f : OpRec → OpRec) : DBState :=
  { s with operations := s.operations.map (fun o => if o.id == opId then f o else o) }

/-- The per-operation loop shared by `tasks.process_pending_operations`
(tasks.py, lines 205-234) and `background_tasks.
process_pending_operations_task` (background_tasks.py, lines 71-83), walking
the pending snapshot in order:

* at or above the retry ceiling: mark the row `failed` and continue —
  no remote command is issued;
* below the ceiling: call `imap_manager.execute_operation` (recorded in the
  returned trace); on success mark `success`, on failure increment
  `retry_count` and stamp `last_retry`, leaving the row `pending`.

The three row transitions and the issued-call record follow, then the loop
itself (`run_ops`). -/
def op_fail (o : OpRec) : OpRec := { o with status := OpStatus.failed }

/-- `operation.status = 'success'` after a successful remote command. -/
def op_succeed (o : OpRec) : OpRec := { o with status := OpStatus.success }

/-- `operation.retry_count += 1; operation.last_retry = utcnow()` after a
failed attempt; the row stays `pending` for a later sweep. -/
def op_retry (now : String) (o : OpRec) : OpRec :=
  { o with retry_count := o.retry_count + 1, last_retry := some now }

/-- The remote call issued for one operation, as the stub protocol backend
observes it. -/
def mkCall (o : OpRec) : IssuedCall :=
  { op_id := o.id, operation_type := o.operation_type, email_uid := o.email_uid }

def run_ops (exec : String → String → Bool) (now : String) :
    List OpRec → DBState → DBState × List IssuedCall
  | [], s => (s, [])
  | op :: rest, s =>
      if op.max_retries ≤ op.retry_count then
        run_ops exec now rest (updateOp s op.id op_fail)
      else
        let ok := exec op.operation_type op.email_uid
        let s1 :=
          if ok then updateOp s op.id op_succeed
          else updateOp s op.id (op_retry now)
        let out := run_ops exec now rest s1
        (out.1, mkCall op :: out.2)

/-- `tasks.process_pending_operations` (lines 194-248): select the snapshot
of rows with status `pending` and run the drain loop over it.  The returned
trace lists the `execute_operation` calls in the order they were issued. -/
def process_pending_operations (serverOk : String → String → Bool) (now : String)
    (s : DBState) : DBState × List IssuedCall :=
  run_ops (execute_operation serverOk) now
    (s.operations.filter (fun o => o.status == OpStatus.pending)) s

/-- One enqueue/drain cycle: some new operations are enqueued (appended to
the table, each with a fresh uuid primary key) and then one drain sweep
runs with the server behaviour `serverOk` at time `now`. -/
structure SweepInput where
  newOps : List OpRec
  serverOk : String → String → Bool
  now : String

/-- Appending the newly enqueued operations and running one drain sweep. -/
def drainCycle (s : DBState) (inp : SweepInput) : DBState × List IssuedCall :=
  process_pending_operations inp.serverOk inp.now
    { s with operations := s.operations ++ inp.newOps }

/-- A sequence of enqueue/drain cycles, concatenating the issued-call
traces. -/
def drainCycles : DBState → List SweepInput → DBState × List IssuedCall
  | s, [] => (s, [])
  | s, inp :: rest =>
      let out1 := drainCycle s inp
      let out2 := drainCycles out1.1 rest
      (out2.1, out1.2 ++ out2.2)

/-- One `IMAPConnection` object (imap_manager.py, lines 22-86): its identity,
whether its socket is live, and the `last_used` stamp. -/
structure PoolConn where
  id : Nat
  connected : Bool
  last_used : Nat
deriving Repr, DecidableEq

/-- The state of an `IMAPConnectionPool` (imap_manager.py, lines 88-152):

* `conns` — every connection object currently alive, by id;
* `members` — the ids in `self.connections` (the list the cleanup sweep
  walks);
* `available` — the ids queued in `self.available_connections`, front
  first;
* `leased` — the ids currently yielded to a `get_connection` caller and not
  yet returned by its `finally` block;
* `nextId` — the next fresh id for a newly constructed connection. -/
structure PoolState where
  conns : List PoolConn
  members : List Nat
  available : List Nat
  leased : List Nat
  nextId : Nat
deriving Repr, DecidableEq

/-- The pool produced by `IMAPConnectionPool.__init__` with
`max_connections = n` when every initial `connect()` succeeds: connections
`0 .. n-1`, all members, all available, none leased. -/
def mkPool (n : Nat) (now : Nat) : PoolState :=
  { conns := (List.range n).map (fun i => { id := i, connected := true, last_used := now }),
    members := List.range n,
    available := List.range n,
    leased := [],
    nextId := n }

/-- The entry half of `IMAPConnectionPool.get_connection` (lines 110-124):
take the front of the `available_connections` queue; when the queue is
empty (`Empty` after the bounded wait), construct a temporary connection —
`tempOk` tells whether its `connect()` succeeds; on failure the lease raises
and no session is handed out. -/
def pool_lease (s : PoolState) (now : Nat) (tempOk : Bool) : PoolState × Option Nat :=
  match s.available with
  | c :: rest => ({ s with available := rest, leased := s.leased ++ [c] }, some c)
  | [] =>
      if tempOk then
        let fresh : PoolConn := { id := s.nextId, connected := true, last_used := now }
        let s1 : PoolState :=
          { s with
            conns := s.conns ++ [fresh],
            leased := s.leased ++ [s.nextId],
            nextId := s.nextId + 1 }
        (s1, some s.nextId)
      else
        (s, none)

/-- The `finally` half of `IMAPConnectionPool.get_connection` (lines
125-132): the session leaves the caller's hands; if it is still connected it
is put back on the queue, otherwise a reconnect is attempted and only a
successful reconnect puts it back. -/
def pool_release (s : PoolState) (connId : Nat) (stillConn reconnectOk : Bool) (now : Nat) :
    PoolState :=
  if connId ∈ s.leased then
    let s1 := { s with leased := s.leased.erase connId }
    if stillConn then
      { s1 with available := s1.available ++ [connId] }
    else if reconnectOk then
      { s1 with
        conns := s1.conns.map (fun c =>
          if c.id == connId then { c with connected := true, last_used := now } else c),
        available := s1.available ++ [connId] }
    else
      { s1 with conns := s1.conns.map (fun c =>
          if c.id == connId then { c with connected := false } else c) }
  else
    s

/-- One eviction of `IMAPConnectionPool.cleanup_stale_connections` (lines
144-152): disconnect the stale connection — leased or not — drop it from
`self.connections`, and, when the replacement's `connect()` succeeds
(`i ∉ failIds`), put the freshly connected replacement in the pool and on
the queue; a failed replacement connect leaves the pool one short. -/
def pool_evict (now : Nat) (failIds : List Nat) (st : PoolState) (i : Nat) : PoolState :=
  let dis : PoolConn → PoolConn := fun c => if c.id == i then { c with connected := false } else c
  let st1 : PoolState := { st with conns := st.conns.map dis, members := st.members.erase i }
  if failIds.contains i then
    st1
  else
    let fresh : PoolConn := { id := st1.nextId, connected := true, last_used := now }
    { st1 with
      conns := st1.conns ++ [fresh],
      members := st1.members ++ [st1.nextId],
      available := st1.available ++ [st1.nextId],
      nextId := st1.nextId + 1 }

/-- The staleness test and loop of `cleanup_stale_connections`: which
members fail the probe or have been idle past 30 minutes, and the
disconnect-and-replace pass over them.  `new_conn.connect()` for the
replacement (imap_manager.py, line 150) can itself fail, in which case no
replacement joins the pool; `failIds` lists the evicted ids whose
replacement fails to connect. -/
def cleanup_stale_connections (s : PoolState) (now : Nat) (failIds : List Nat) :
    PoolState × List Nat :=
  let staleIds := s.members.filter (fun i =>
    match s.conns.find? (fun c => c.id == i) with
    | none => true
    | some c => !c.connected || decide (1800 < now - c.last_used))
  (staleIds.foldl (pool_evict now failIds) s, staleIds)

/-- The concurrent clients of the pool, interleaved: each event is one
atomic action on the pool's shared state. -/
inductive PoolEvent
  | lease (now : Nat) (tempOk : Bool)
  | release (connId : Nat) (stillConn reconnectOk : Bool) (now : Nat)
  | cleanup (now : Nat) (failIds : List Nat)
deriving Repr, DecidableEq

/-- Interpretation of one pool event. -/
def poolStep (s : PoolState) (ev : PoolEvent) : PoolState :=
  match ev with
  | PoolEvent.lease now tempOk => (pool_lease s now tempOk).1
  | PoolEvent.release connId stillConn reconnectOk now =>
      pool_release s connId stillConn reconnectOk now
  | PoolEvent.cleanup now failIds => (cleanup_stale_connections s now failIds).1

/-- A run of the pool: fold the events over an initial state. -/
def poolRun (s : PoolState) (evs : List PoolEvent) : PoolState :=
  evs.foldl poolStep s

/-- One event fanned out by `RealtimeService.broadcast_event`. -/
structure RTEvent where
  etype : String
  payload : String
deriving Repr, DecidableEq

/-- One registered client of `RealtimeService` (realtime_service.py, lines
30-45): its id, the `maxsize` of its `Queue` (`0` is Python's unbounded
queue), the queued events front-oldest, and its subscription set. -/
structure RTClient where
  id : String
  maxsize : Nat
  events : List RTEvent
  subscriptions : List String
deriving Repr, DecidableEq

/-- The `clients` dict of `RealtimeService`. -/
structure RTState where
  clients : List RTClient
deriving Repr, DecidableEq

/-- `queue.Queue.put(event, block=False)` as used by `broadcast_event`
(line 91): on a full bounded queue it raises `Full`, which the caller
swallows — the *newly published* event is discarded and the queue is left
as it was; otherwise the event is appended behind the existing ones. -/
def put_nowait (c : RTClient) (e : RTEvent) : RTClient :=
  if c.maxsize ≠ 0 && c.maxsize ≤ c.events.length then c
  else { c with events := c.events ++ [e] }

/-- `RealtimeService.register_client` (lines 30-45): appends a client whose
event queue is `Queue()` — maxsize 0, i.e. unbounded — with the default
subscription set. -/
def register_client (s : RTState) (cid : String) : RTState :=
  { clients := s.clients ++ [{ id := cid, maxsize := 0, events := [], subscriptions := ["email_updates"] }] }

/-- Whether a client is in the target list of a broadcast.  The code's
`target_clients or list(self.clients.keys())` (realtime_service.py, line
82) falls back to *all* clients when `target_clients` is `None` or the
empty list (both falsy in Python). -/
def rt_targeted (targets : Option (List String)) (c : RTClient) : Bool :=
  match targets with
  | none => true
  | some ts => if ts.isEmpty then true else ts.contains c.id

/-- The per-client body of `broadcast_event`: a targeted, subscribed client
gets a non-blocking put of the new event; everyone else is untouched. -/
def rt_deliver (etype payload : String) (targets : Option (List String))
    (c : RTClient) : RTClient :=
  if rt_targeted targets c && (c.subscriptions.contains etype || c.subscriptions.contains "all") then
    put_nowait c { etype := etype, payload := payload }
  else c

/-- `RealtimeService.broadcast_event` (lines 72-96): for every targeted
client (all of them when `targets = none`) that subscribes to the event's
type (or to `all`), try a non-blocking put of the new event; a full queue
makes the put raise, the exception is logged and that client is skipped. -/
def broadcast_event (s : RTState) (etype payload : String)
    (targets : Option (List String)) : RTState :=
  { clients := s.clients.map (rt_deliver etype payload targets) }

/-- A sequence of broadcasts, all to every client (`targets = none`). -/
def broadcast_all : RTState → List RTEvent → RTState
  | s, [] => s
  | s, e :: rest => broadcast_all (broadcast_event s e.etype e.payload none) rest

/-- Look a client up by id. -/
def getClient (s : RTState) (cid : String) : Option RTClient :=
  s.clients.find? (fun c => c.id == cid)

/-! ## Shared test fixtures -/

/-- An empty database. -/
def emptyDB : DBState := { emails := [], attachments := [], operations := [], cacheKeys := [] }

/-- A parser collaborator that parses everything to a fixed message. -/
def testParsed : ParsedEmail :=
  { subject := "hello", from_name := "alice", from_email := "alice@example.com",
    body := "body", date := "2024-01-01T00:00:00", attachments := [] }

/-- A parser that always succeeds. -/
def parseAlways : String → Option ParsedEmail := fun _ => some testParsed

/-- A parser that always fails (returns the empty dict). -/
def parseNever : String → Option ParsedEmail := fun _ => none

/-- A stored email row used as concrete input by several witnesses. -/
def testEmail : EmailRec :=
  { id := md5 "mid-1", uid_validity := "100", message_id := "mid-1", subject := "hello",
    body := "body", is_read := false, is_deleted := false, is_flagged := false,
    is_starred := false, attachment_count := 0 }

/-! ## Frame lemmas about the store and the drain loop -/

theorem attachment_step_emails (e : EmailRec) (st : DBState) (a : AttachmentData) :
    (attachment_step e st a).emails = st.emails := by
  unfold attachment_step
  split
  · rfl
  · split <;> rfl

theorem attachment_step_operations (e : EmailRec) (st : DBState) (a : AttachmentData) :
    (attachment_step e st a).operations = st.operations := by
  unfold attachment_step
  split
  · rfl
  · split <;> rfl

theorem process_attachments_emails (s : DBState) (e : EmailRec) (atts : List AttachmentData) :
    (process_attachments s e atts).emails = s.emails := by
  induction atts generalizing s with
  | nil => rfl
  | cons a rest ih =>
      show (process_attachments (attachment_step e s a) e rest).emails = s.emails
      rw [ih, attachment_step_emails]

theorem process_attachments_operations (s : DBState) (e : EmailRec) (atts : List AttachmentData) :
    (process_attachments s e atts).operations = s.operations := by
  induction atts generalizing s with
  | nil => rfl
  | cons a rest ih =>
      show (process_attachments (attachment_step e s a) e rest).operations = s.operations
      rw [ih, attachment_step_operations]

theorem store_email_safely_operations (parse : String → Option ParsedEmail) (now : String)
    (s : DBState) (d : EmailData) :
    (store_email_safely parse now s d).2.operations = s.operations := by
  unfold store_email_safely
  by_cases h : is_email_exists s (generate_email_id d.message_id d.uid now) = true
  · simp [h]
  · cases hp : parse d.raw_content with
    | none => simp [h, hp]
    | some p =>
        by_cases hc : message_id_exists s d.message_id = true
        · simp [h, hp, hc]
        · simp [h, hp, hc, process_attachments_operations, cache_email_detail,
            invalidate_email_list_cache]

/-- Either the store leaves the emails table alone (fingerprint already
present, parse failure, or `IntegrityError` on the unique `message_id`
column), or the fingerprint was absent and exactly one new row carrying it
and the message id is appended. -/
theorem store_email_safely_emails_cases (parse : String → Option ParsedEmail) (now : String)
    (s : DBState) (d : EmailData) :
    (store_email_safely parse now s d).2.emails = s.emails ∨
    (is_email_exists s (generate_email_id d.message_id d.uid now) = false ∧
     ∃ r : EmailRec, r.id = generate_email_id d.message_id d.uid now ∧
       r.message_id = d.message_id ∧
       (store_email_safely parse now s d).2.emails = s.emails ++ [r]) := by
  unfold store_email_safely
  by_cases h : is_email_exists s (generate_email_id d.message_id d.uid now) = true
  · exact Or.inl (by simp [h])
  · cases hp : parse d.raw_content with
    | none => exact Or.inl (by simp [h, hp])
    | some p =>
        by_cases hc : message_id_exists s d.message_id = true
        · exact Or.inl (by simp [h, hp, hc])
        · refine Or.inr ⟨by simpa using h, ?_⟩
          refine ⟨{ id := generate_email_id d.message_id d.uid now,
                    uid_validity := d.uid_validity, message_id := d.message_id,
                    subject := p.subject, body := p.body, is_read := d.is_read,
                    is_deleted := false, is_flagged := false, is_starred := false,
                    attachment_count := p.attachments.length }, rfl, rfl, ?_⟩
          simp [h, hp, hc, process_attachments_emails, cache_email_detail,
            invalidate_email_list_cache]

theorem mem_emails_store (parse : String → Option ParsedEmail) (now : String)
    (s : DBState) (d : EmailData) :
    ∀ e ∈ s.emails, e ∈ (store_email_safely parse now s d).2.emails := by
  intro e he
  rcases store_email_safely_emails_cases parse now s d with hc | ⟨_, r, _, _, hc⟩
  · rw [hc]; exact he
  · rw [hc]; exact List.mem_append_left _ he

theorem not_mem_ids_of_not_exists (s : DBState) (i : String)
    (h : is_email_exists s i = false) :
    i ∉ s.emails.map (fun e => e.id) := by
  intro hmem
  rcases List.mem_map.mp hmem with ⟨e, he, hid⟩
  have hall : s.emails.any (fun e => e.id == i) = true :=
    List.any_eq_true.mpr ⟨e, he, by simp [hid]⟩
  rw [is_email_exists] at h
  rw [h] at hall
  exact Bool.false_ne_true hall

theorem nodup_ids_store (parse : String → Option ParsedEmail) (now : String)
    (s : DBState) (d : EmailData)
    (h : (s.emails.map (fun e => e.id)).Nodup) :
    ((store_email_safely parse now s d).2.emails.map (fun e => e.id)).Nodup := by
  rcases store_email_safely_emails_cases parse now s d with hc | ⟨hni, r, hid, _, hc⟩
  · rw [hc]; exact h
  · rw [hc, List.map_append]
    rw [List.nodup_append]
    refine ⟨h, List.nodup_singleton _, ?_⟩
    intro a ha hb
    simp only [List.map_cons, List.map_nil, List.mem_singleton] at hb
    subst hb
    rw [hid] at ha
    exact not_mem_ids_of_not_exists s _ hni ha

theorem store_unchanged_of_exists (parse : String → Option ParsedEmail) (now : String)
    (s : DBState) (d : EmailData)
    (h : is_email_exists s (generate_email_id d.message_id d.uid now) = true) :
    store_email_safely parse now s d =
      (getEmail s (generate_email_id d.message_id d.uid now), s) := by
  unfold store_email_safely
  simp [h]

theorem store_unchanged_of_parse_none (parse : String → Option ParsedEmail) (now : String)
    (s : DBState) (d : EmailData)
    (hni : is_email_exists s (generate_email_id d.message_id d.uid now) = false)
    (hp : parse d.raw_content = none) :
    store_email_safely parse now s d = (none, s) := by
  unfold store_email_safely
  simp [hni, hp]

/-! ## Claim C10 -/

/-- C10: for every fetched email whose raw content fails to parse (the
parser returns an empty result), `store_email_safely` returns `None` and the
store is unchanged on that error path — no email row, no attachment row, no
cached detail entry.  The parse-failure branch is only reachable when no row
with this fingerprint exists (the existence check runs first), which is the
first hypothesis. -/
theorem c10_parse_failure_leaves_store_unchanged
    (parse : String → Option ParsedEmail) (now : String) (s : DBState) (d : EmailData)
    (hni : is_email_exists s (generate_email_id d.message_id d.uid now) = false)
    (hp : parse d.raw_content = none) :
    store_email_safely parse now s d = (none, s) :=
  store_unchanged_of_parse_none parse now s d hni hp

/-- Witness for C10 at a concrete input: an empty store, a message whose
content the parser rejects. -/
theorem c10_witness :
    is_email_exists emptyDB (generate_email_id "mid-1" "7" "100") = false ∧
    parseNever "garbage" = none ∧
    store_email_safely parseNever "100" emptyDB
      { message_id := "mid-1", uid := "7", uid_validity := "100",
        raw_content := "garbage", is_read := false } = (none, emptyDB) :=
  ⟨by decide, rfl,
    c10_parse_failure_leaves_store_unchanged parseNever "100" emptyDB
      { message_id := "mid-1", uid := "7", uid_validity := "100",
        raw_content := "garbage", is_read := false } (by decide) rfl⟩

/-! ## Claim C2 -/

/-- A raw message carrying no message identifier, so that
`generate_email_id` falls back to the uid-plus-timestamp hash; used by the
C2 and C7 witnesses. -/
def noMidData : EmailData :=
  { message_id := "", uid := "u1", uid_validity := "1",
    raw_content := "raw", is_read := false }

/-- When the message id is non-empty the fingerprint ignores the timestamp. -/
theorem generate_email_id_of_ne (message_id uid now : String) (h : message_id ≠ "") :
    generate_email_id message_id uid now = md5 message_id := by
  simp [generate_email_id, h]

theorem is_email_exists_append (s : DBState) (r : EmailRec) (l : List EmailRec) (i : String)
    (hc : s.emails = l ++ [r]) (hr : r.id = i) :
    is_email_exists s i = true := by
  rw [is_email_exists, hc]
  simp [hr]

theorem message_id_exists_append (s : DBState) (r : EmailRec) (l : List EmailRec) (mid : String)
    (hc : s.emails = l ++ [r]) (hr : r.message_id = mid) :
    message_id_exists s mid = true := by
  rw [message_id_exists, hc]
  simp [hr]

/-- The `IntegrityError` path: fingerprint absent, parse fine, but a row
with the same `message_id` already exists — the commit fails, the session
is rolled back and `Email.query.get(email_id)` is returned. -/
theorem store_unchanged_of_conflict (parse : String → Option ParsedEmail) (now : String)
    (s : DBState) (d : EmailData) (p : ParsedEmail)
    (hni : is_email_exists s (generate_email_id d.message_id d.uid now) = false)
    (hp : parse d.raw_content = some p)
    (hcon : message_id_exists s d.message_id = true) :
    store_email_safely parse now s d
      = (getEmail s (generate_email_id d.message_id d.uid now), s) := by
  unfold store_email_safely
  simp [hni, hp, hcon]

/-- The successful-insert path appends exactly one row carrying the
computed fingerprint and the message id. -/
theorem store_insert_shape (parse : String → Option ParsedEmail) (now : String)
    (s : DBState) (d : EmailData) (p : ParsedEmail)
    (hni : is_email_exists s (generate_email_id d.message_id d.uid now) = false)
    (hp : parse d.raw_content = some p)
    (hcon : message_id_exists s d.message_id = false) :
    ∃ r : EmailRec, r.id = generate_email_id d.message_id d.uid now ∧
      r.message_id = d.message_id ∧
      (store_email_safely parse now s d).2.emails = s.emails ++ [r] := by
  refine ⟨{ id := generate_email_id d.message_id d.uid now,
            uid_validity := d.uid_validity, message_id := d.message_id,
            subject := p.subject, body := p.body, is_read := d.is_read,
            is_deleted := false, is_flagged := false, is_starred := false,
            attachment_count := p.attachments.length }, rfl, rfl, ?_⟩
  unfold store_email_safely
  simp [hni, hp, hcon, process_attachments_emails, cache_email_detail,
    invalidate_email_list_cache]

/-- Whenever the first store starts from a state where the computed
fingerprint is absent (the first fetch is the one that brings the message
in), the second store of the same message changes nothing: either the
fingerprint now exists (non-empty message id), or the parse fails again, or
the duplicate insert trips the unique-`message_id` constraint and is rolled
back. -/
theorem second_store_noop_of_not_exists
    (parse : String → Option ParsedEmail) (now1 now2 : String) (s : DBState) (d : EmailData)
    (hex : is_email_exists s (generate_email_id d.message_id d.uid now1) = false) :
    (store_email_safely parse now2 (store_email_safely parse now1 s d).2 d).2
      = (store_email_safely parse now1 s d).2 := by
  cases hp : parse d.raw_content with
  | none =>
      rw [store_unchanged_of_parse_none parse now1 s d hex hp]
      dsimp only
      by_cases hex2 : is_email_exists s (generate_email_id d.message_id d.uid now2) = true
      · rw [store_unchanged_of_exists parse now2 s d hex2]
      · rw [store_unchanged_of_parse_none parse now2 s d (Bool.eq_false_iff.mpr hex2) hp]
  | some p =>
      by_cases hcon : message_id_exists s d.message_id = true
      · rw [store_unchanged_of_conflict parse now1 s d p hex hp hcon]
        dsimp only
        by_cases hex2 : is_email_exists s (generate_email_id d.message_id d.uid now2) = true
        · rw [store_unchanged_of_exists parse now2 s d hex2]
        · rw [store_unchanged_of_conflict parse now2 s d p
            (Bool.eq_false_iff.mpr hex2) hp hcon]
      · have hcon' : message_id_exists s d.message_id = false := Bool.eq_false_iff.mpr hcon
        obtain ⟨r, _, hrmid, hemails⟩ := store_insert_shape parse now1 s d p hex hp hcon'
        by_cases hex2 : is_email_exists (store_email_safely parse now1 s d).2
            (generate_email_id d.message_id d.uid now2) = true
        · rw [store_unchanged_of_exists parse now2 _ d hex2]
        · have hconf2 : message_id_exists (store_email_safely parse now1 s d).2
              d.message_id = true :=
            message_id_exists_append _ r s.emails _ hemails hrmid
          rw [store_unchanged_of_conflict parse now2 _ d p
            (Bool.eq_false_iff.mpr hex2) hp hconf2]

/-- C2: the second store of the same email under the same mailbox identity
is a no-op, and the store keeps exactly one record per fingerprint.  For an
email with a non-empty `Message-ID` the fingerprint `md5(message_id)` does
not depend on the time, so the second call hits the existence check and
returns with the state untouched.  For an email without a `Message-ID` the
fallback fingerprint takes a fresh timestamp, but — starting from a state
where the first fetch is the one that brought the message in — the second
insert then violates the `UNIQUE` constraint on `emails.message_id`
(models.py, line 15; both rows would carry the empty string): the
`IntegrityError` is caught and rolled back (email_sync_service.py, lines
181-184), so the state is again unchanged.  Inserts only happen when the
computed fingerprint is absent, so fingerprints stay pairwise distinct
after any store. -/
theorem c2_second_store_is_noop
    (parse : String → Option ParsedEmail) (now1 now2 : String) (s : DBState) (d : EmailData) :
    (d.message_id ≠ "" →
      (store_email_safely parse now2 (store_email_safely parse now1 s d).2 d).2
        = (store_email_safely parse now1 s d).2) ∧
    (is_email_exists s (generate_email_id d.message_id d.uid now1) = false →
      (store_email_safely parse now2 (store_email_safely parse now1 s d).2 d).2
        = (store_email_safely parse now1 s d).2) ∧
    ((s.emails.map (fun e => e.id)).Nodup →
      ((store_email_safely parse now1 s d).2.emails.map (fun e => e.id)).Nodup) := by
  refine ⟨?_, second_store_noop_of_not_exists parse now1 now2 s d,
    nodup_ids_store parse now1 s d⟩
  intro h
  by_cases hex : is_email_exists s (generate_email_id d.message_id d.uid now1) = true
  · rw [store_unchanged_of_exists parse now1 s d hex]
    dsimp only
    have hex2 : is_email_exists s (generate_email_id d.message_id d.uid now2) = true := by
      rw [generate_email_id_of_ne _ _ _ h] at hex ⊢
      exact hex
    rw [store_unchanged_of_exists parse now2 s d hex2]
  · exact second_store_noop_of_not_exists parse now1 now2 s d (Bool.eq_false_iff.mpr hex)

/-- Witness for C2 at a concrete input: the same `Message-ID`-less email
stored at timestamps 1000 and 2000.  The second store computes a fresh
fallback fingerprint, trips the unique-`message_id` constraint, and leaves
the single stored row untouched. -/
theorem c2_witness :
    is_email_exists emptyDB
        (generate_email_id noMidData.message_id noMidData.uid "1000") = false ∧
    (store_email_safely parseAlways "2000"
        (store_email_safely parseAlways "1000" emptyDB noMidData).2 noMidData).2
      = (store_email_safely parseAlways "1000" emptyDB noMidData).2 :=
  ⟨by decide,
    (c2_second_store_is_noop parseAlways "1000" "2000" emptyDB noMidData).2.1 (by decide)⟩

theorem syncLoop_mem (parse : String → Option ParsedEmail) (now : String)
    (l : List EmailData) (s : DBState) :
    ∀ e ∈ s.emails, e ∈ (syncLoop parse now l s).1.emails := by
  induction l generalizing s with
  | nil => intro e he; exact he
  | cons d rest ih =>
      intro e he
      have hmem := mem_emails_store parse now s d e he
      unfold syncLoop
      cases hst : store_email_safely parse now s d with
      | mk res s1 =>
          rw [hst] at hmem
          cases res with
          | some r => simpa using ih s1 e hmem
          | none => simpa using ih s1 e hmem

theorem syncLoop_nodup (parse : String → Option ParsedEmail) (now : String)
    (l : List EmailData) (s : DBState)
    (h : (s.emails.map (fun e => e.id)).Nodup) :
    ((syncLoop parse now l s).1.emails.map (fun e => e.id)).Nodup := by
  induction l generalizing s with
  | nil => exact h
  | cons d rest ih =>
      have h1 := nodup_ids_store parse now s d h
      unfold syncLoop
      cases hst : store_email_safely parse now s d with
      | mk res s1 =>
          rw [hst] at h1
          cases res with
          | some r => simpa using ih s1 h1
          | none => simpa using ih s1 h1

/-! ## Claim C1 -/

/-- The fresh message the C1 counterexample fetches under the new mailbox
identity token. -/
def dNew : EmailData :=
  { message_id := "mid-2", uid := "8", uid_validity := "200",
    raw_content := "raw2", is_read := false }

/-- C1 counterexample: the replica holds a record stored under mailbox
identity token 100; a reconciliation run then observes token 200 on its
fetched messages (`_parse_email` stamps the fetch-time token into
`uid_validity`).  The claim requires every existing identity-to-message
mapping to be discarded before the incremental fetch, but the code compares
no tokens and discards nothing: the old record survives the run. -/
theorem c1_counterexample :
    ("100" : String) ≠ "200" ∧
    testEmail.uid_validity = "100" ∧ dNew.uid_validity = "200" ∧
    testEmail ∈ (sync_emails parseAlways "200"
      { emails := [testEmail], attachments := [], operations := [], cacheKeys := [] }
      [dNew]).2.emails := by
  decide

/-- C1 amended: the code maintains no mailbox-identity watermark: a
reconciliation run never discards existing records, whatever identity token
the fetched messages carry — every record present before the run is present
after it.  Deduplication is by content fingerprint alone, so the emails
table keeps pairwise-distinct fingerprints across any run, which is what
makes identity reuse harmless: exactly one record per fingerprint
survives. -/
theorem c1_no_discard_and_unique_fingerprints
    (parse : String → Option ParsedEmail) (now : String)
    (s : DBState) (fetched : List EmailData) :
    (∀ e ∈ s.emails, e ∈ (sync_emails parse now s fetched).2.emails) ∧
    ((s.emails.map (fun e => e.id)).Nodup →
      ((sync_emails parse now s fetched).2.emails.map (fun e => e.id)).Nodup) := by
  unfold sync_emails
  by_cases hf : fetched.isEmpty
  · simp [hf]
  · constructor
    · intro e he
      simpa [hf] using syncLoop_mem parse now fetched s e he
    · intro h
      simpa [hf] using syncLoop_nodup parse now fetched s h

/-- Witness for C1 at a concrete input: the single-record replica of the
counterexample, whose fingerprints are trivially distinct. -/
theorem c1_witness :
    (([testEmail].map (fun e => e.id)).Nodup) ∧
    ((sync_emails parseAlways "200"
        { emails := [testEmail], attachments := [], operations := [], cacheKeys := [] }
        [dNew]).2.emails.map (fun e => e.id)).Nodup :=
  ⟨by decide,
    (c1_no_discard_and_unique_fingerprints parseAlways "200"
      { emails := [testEmail], attachments := [], operations := [], cacheKeys := [] }
      [dNew]).2 (by decide)⟩

/-! ## Claim C6 -/

/-- A replica with one stored email and no pending operations, used by the
C6 theorems. -/
def oneEmailDB : DBState :=
  { emails := [testEmail], attachments := [], operations := [], cacheKeys := [] }

/-- C6 counterexample: the star endpoint accepts the mutation (the email is
found and the toggle is applied) yet enqueues nothing — the operations table
stays empty — while the read endpoint on the same state enqueues a pending
operation.  The star change is therefore never propagated to the server. -/
theorem c6_counterexample :
    (star_email oneEmailDB testEmail.id).2 = true ∧
    (star_email oneEmailDB testEmail.id).1.operations = [] ∧
    (mark_as_read oneEmailDB testEmail.id 0).1.operations ≠ [] := by
  decide

/-- C6 amended: the read, unread and delete endpoints each enqueue exactly
one durable pending operation (status `pending`, retry ceiling 3) for the
accepted mutation; the star endpoint performs only the local toggle and
enqueues no operation at all. -/
theorem c6_star_enqueues_nothing
    (s : DBState) (email_id : String) (opId : Nat) (e : EmailRec)
    (he : getEmail s email_id = some e) :
    (mark_as_read s email_id opId).1.operations
        = s.operations ++ [newOp opId email_id "read"] ∧
    (mark_as_unread s email_id opId).1.operations
        = s.operations ++ [newOp opId email_id "unread"] ∧
    (delete_email s email_id opId).1.operations
        = s.operations ++ [newOp opId email_id "delete"] ∧
    (star_email s email_id).1.operations = s.operations := by
  refine ⟨?_, ?_, ?_, ?_⟩ <;>
    simp [mark_as_read, mark_as_unread, delete_email, star_email, he, setEmailRead]

/-- Witness for C6 at a concrete input. -/
theorem c6_witness :
    getEmail oneEmailDB testEmail.id = some testEmail ∧
    (star_email oneEmailDB testEmail.id).1.operations = oneEmailDB.operations :=
  ⟨by decide,
    (c6_star_enqueues_nothing oneEmailDB testEmail.id 0 testEmail (by decide)).2.2.2⟩

/-! ## Claim C7 -/

theorem syncLoop_counts (parse : String → Option ParsedEmail) (now : String)
    (l : List EmailData) (s : DBState) :
    (syncLoop parse now l s).2.1 + (syncLoop parse now l s).2.2 = l.length := by
  induction l generalizing s with
  | nil => rfl
  | cons d rest ih =>
      unfold syncLoop
      cases hst : store_email_safely parse now s d with
      | mk res s1 =>
          cases res with
          | some r =>
              have := ih s1
              dsimp only [List.length_cons]
              omega
          | none =>
              have := ih s1
              dsimp only [List.length_cons]
              omega

/-- C7 counterexample: a connection-level failure (`SEARCH` raises before
the per-message loop).  `fetch_emails` swallows the exception and returns
the empty batch, and the sync reports status `success` with count 0 and the
state untouched; the claim requires the connection-level error to be
reported to the caller. -/
theorem c7_counterexample :
    (sync_emails_pipeline parseNever none "100" emptyDB).1.status = "success" ∧
    (sync_emails_pipeline parseNever none "100" emptyDB).1.count = 0 ∧
    (sync_emails_pipeline parseNever none "100" emptyDB).2 = emptyDB := by
  decide

/-- C7 amended: per-message failure handling is split across two layers.
A store-side failure (the body parser rejecting one message) only skips
that message: every fetched message is accounted for (`count + skipped`
equals the batch size) and the run still reports `success`.  A per-message
*fetch* failure is dropped inside `fetch_emails` before the sync loop ever
sees it — the run is exactly the run without that message, so the failure
is *not* counted in the skipped total.  A connection-level failure aborts
the remaining batch but is swallowed: the sync reports `success` with
count 0 and an unchanged state instead of surfacing the error. -/
theorem c7_per_item_skips_connection_error_swallowed
    (parse : String → Option ParsedEmail) (now : String) (s : DBState)
    (fetched : List EmailData) (items : List FetchItem)
    (hne : fetched ≠ []) :
    (sync_emails parse now s fetched).1.status = "success" ∧
    (sync_emails parse now s fetched).1.count
        + (sync_emails parse now s fetched).1.skipped.getD 0 = fetched.length ∧
    sync_emails_pipeline parse (some (FetchItem.fetchFail :: items)) now s
        = sync_emails_pipeline parse (some items) now s ∧
    sync_emails_pipeline parse (some (FetchItem.parseFail :: items)) now s
        = sync_emails_pipeline parse (some items) now s ∧
    sync_emails_pipeline parse none now s
        = ({ status := "success", message := "No emails found",
             count := 0, skipped := none }, s) := by
  have hf : fetched.isEmpty = false := by
    cases fetched with
    | nil => exact absurd rfl hne
    | cons a l => rfl
  refine ⟨?_, ?_, ?_, ?_, ?_⟩
  · simp [sync_emails, hf]
  · simp only [sync_emails, hf, Bool.false_eq_true, if_false, Option.getD_some]
    exact syncLoop_counts parse now fetched s
  · simp [sync_emails_pipeline, fetch_emails]
  · simp [sync_emails_pipeline, fetch_emails]
  · simp [sync_emails_pipeline, fetch_emails, sync_emails]

/-- Witness for C7 at a concrete input: a two-message batch whose first
message fails to parse at the store — it is skipped and counted, the second
is stored. -/
theorem c7_witness :
    ([noMidData, dNew] : List EmailData) ≠ [] ∧
    (sync_emails (fun raw => if raw == "raw2" then some testParsed else none)
        "300" emptyDB [noMidData, dNew]).1.count
      + (sync_emails (fun raw => if raw == "raw2" then some testParsed else none)
        "300" emptyDB [noMidData, dNew]).1.skipped.getD 0 = 2 :=
  ⟨by decide,
    (c7_per_item_skips_connection_error_swallowed
      (fun raw => if raw == "raw2" then some testParsed else none)
      "300" emptyDB [noMidData, dNew] [] (by decide)).2.1⟩

/-! ## Claim C8 -/

theorem put_nowait_id (c : RTClient) (e : RTEvent) : (put_nowait c e).id = c.id := by
  unfold put_nowait
  split <;> rfl

theorem rt_deliver_id (etype payload : String) (targets : Option (List String)) (c : RTClient) :
    (rt_deliver etype payload targets c).id = c.id := by
  unfold rt_deliver
  split
  · exact put_nowait_id c _
  · rfl

theorem find?_map_of_id_pres (l : List RTClient) (f : RTClient → RTClient)
    (hf : ∀ c, (f c).id = c.id) (cid : String) :
    (l.map f).find? (fun c => c.id == cid) = (l.find? (fun c => c.id == cid)).map f := by
  induction l with
  | nil => rfl
  | cons c rest ih =>
      by_cases h : (c.id == cid) = true
      · simp [List.find?, hf, h]
      · have h' : (c.id == cid) = false := Bool.eq_false_iff.mpr h
        simp [List.find?, hf, h', ih]

theorem getClient_broadcast (s : RTState) (etype payload : String)
    (targets : Option (List String)) (cid : String) :
    getClient (broadcast_event s etype payload targets) cid
      = (getClient s cid).map (rt_deliver etype payload targets) := by
  unfold getClient broadcast_event
  exact find?_map_of_id_pres s.clients _ (rt_deliver_id etype payload targets) cid

theorem getClient_register_fresh (s : RTState) (cid : String)
    (hfresh : ∀ c ∈ s.clients, c.id ≠ cid) :
    getClient (register_client s cid) cid
      = some { id := cid, maxsize := 0, events := [], subscriptions := ["email_updates"] } := by
  unfold getClient register_client
  have hnone : s.clients.find? (fun c => c.id == cid) = none := by
    apply List.find?_eq_none.mpr
    intro c hc
    simp [hfresh c hc]
  rw [List.find?_append, hnone]
  simp [List.find?]

theorem getClient_broadcast_all (evs : List RTEvent) (st : RTState) (cid : String) (c : RTClient)
    (hc : getClient st cid = some c) (hm : c.maxsize = 0)
    (hsub : ∀ e ∈ evs, c.subscriptions.contains e.etype = true) :
    getClient (broadcast_all st evs) cid = some { c with events := c.events ++ evs } := by
  induction evs generalizing st c with
  | nil => simpa using hc
  | cons e rest ih =>
      show getClient (broadcast_all (broadcast_event st e.etype e.payload none) rest) cid = _
      have hs : e.etype ∈ c.subscriptions := by
        have := hsub e (List.mem_cons_self e rest)
        simpa using this
      have hdel : rt_deliver e.etype e.payload none c = { c with events := c.events ++ [e] } := by
        unfold rt_deliver rt_targeted put_nowait
        simp [hs, hm]
      have hstep : getClient (broadcast_event st e.etype e.payload none) cid
          = some { c with events := c.events ++ [e] } := by
        rw [getClient_broadcast, hc]
        simp [hdel]
      have := ih (broadcast_event st e.etype e.payload none)
        { c with events := c.events ++ [e] } hstep hm
        (fun e' he' => hsub e' (List.mem_cons_of_mem e he'))
      rw [this]
      simp

/-- A client whose bounded queue is already full, used by the C8
counterexample. -/
def fullClient : RTClient :=
  { id := "c1", maxsize := 1,
    events := [{ etype := "email_updates", payload := "old" }],
    subscriptions := ["email_updates"] }

/-- C8 counterexample: a subscribed client whose bounded queue (capacity 1)
already holds the event `old`.  Broadcasting the event `new` leaves the
queue exactly as it was: the *newly published* event is dropped and the
oldest undelivered one is kept, the opposite of the claimed drop-oldest
policy (which would leave the queue holding `new`). -/
theorem c8_counterexample :
    (broadcast_event { clients := [fullClient] } "email_updates" "new" none).clients
      = [fullClient] ∧
    fullClient.events = [{ etype := "email_updates", payload := "old" }] := by
  decide

/-- C8 amended: `broadcast_event` is non-blocking and per-client.
`register_client` creates an *unbounded* queue (Python `Queue()` with
maxsize 0), so a registered client is never subject to backpressure: it
receives every broadcast event of a subscribed category, in publication
order, with nothing dropped.  Broadcasting never blocks, removes or
reorders clients.  When a queue *is* bounded and full, the newly published
event is dropped for that client — its queue is left exactly as it was —
while every other client is still delivered to. -/
theorem c8_unbounded_queue_drop_newest
    (s : RTState) (cid : String) (evs : List RTEvent)
    (etype payload : String) (targets : Option (List String))
    (hfresh : ∀ c ∈ s.clients, c.id ≠ cid)
    (hsub : ∀ e ∈ evs, e.etype = "email_updates") :
    getClient (register_client s cid) cid
      = some { id := cid, maxsize := 0, events := [], subscriptions := ["email_updates"] } ∧
    getClient (broadcast_all (register_client s cid) evs) cid
      = some { id := cid, maxsize := 0, events := evs, subscriptions := ["email_updates"] } ∧
    (broadcast_event s etype payload targets).clients.map (fun c => c.id)
      = s.clients.map (fun c => c.id) ∧
    (∀ c ∈ s.clients, c.maxsize ≠ 0 → c.maxsize ≤ c.events.length →
      c ∈ (broadcast_event s etype payload targets).clients) := by
  refine ⟨getClient_register_fresh s cid hfresh, ?_, ?_, ?_⟩
  · have := getClient_broadcast_all evs (register_client s cid) cid
      { id := cid, maxsize := 0, events := [], subscriptions := ["email_updates"] }
      (getClient_register_fresh s cid hfresh) rfl
      (fun e he => by simp [hsub e he])
    simpa using this
  · unfold broadcast_event
    simp only [List.map_map]
    apply List.map_congr_left
    intro c _
    exact rt_deliver_id etype payload targets c
  · intro c hc hbound hfull
    have hdel : rt_deliver etype payload targets c = c := by
      unfold rt_deliver put_nowait
      split
      · simp [hbound, hfull]
      · rfl
    unfold broadcast_event
    exact hdel ▸ List.mem_map_of_mem (rt_deliver etype payload targets) hc

/-- Witness for C8 at a concrete input: a fresh client registered next to
the full one, receiving two events in order. -/
theorem c8_witness :
    (∀ c ∈ ({ clients := [fullClient] } : RTState).clients, c.id ≠ "c2") ∧
    getClient (broadcast_all (register_client { clients := [fullClient] } "c2")
        [{ etype := "email_updates", payload := "e1" },
         { etype := "email_updates", payload := "e2" }]) "c2"
      = some { id := "c2", maxsize := 0,
               events := [{ etype := "email_updates", payload := "e1" },
                          { etype := "email_updates", payload := "e2" }],
               subscriptions := ["email_updates"] } :=
  ⟨by decide,
    (c8_unbounded_queue_drop_newest { clients := [fullClient] } "c2"
      [{ etype := "email_updates", payload := "e1" },
       { etype := "email_updates", payload := "e2" }]
      "email_updates" "x" none (by decide) (by decide)).2.1⟩

/-! ## Claim C9 -/

/-- The pool's structural invariant: no session id is simultaneously in the
idle queue and on loan (or on loan twice), and every such id is below the
fresh-id counter. -/
def PoolInv (s : PoolState) : Prop :=
  (s.available ++ s.leased).Nodup ∧ ∀ i ∈ s.available ++ s.leased, i < s.nextId

theorem poolInv_mkPool (n now : Nat) : PoolInv (mkPool n now) := by
  constructor
  · simp [mkPool, List.nodup_range]
  · intro i hi
    simp only [mkPool, List.append_nil, List.mem_range] at hi
    simpa [mkPool] using hi

theorem poolInv_evict (now : Nat) (failIds : List Nat) (s : PoolState) (i : Nat)
    (h : PoolInv s) : PoolInv (pool_evict now failIds s i) := by
  obtain ⟨hnd, hlt⟩ := h
  unfold pool_evict
  by_cases hfail : failIds.contains i = true
  · rw [if_pos hfail]
    exact ⟨hnd, hlt⟩
  · rw [if_neg hfail]
    have hperm : ((s.available ++ [s.nextId]) ++ s.leased).Perm
        (s.nextId :: (s.available ++ s.leased)) := by
      have h1 : (s.available ++ [s.nextId]) ++ s.leased
          = s.available ++ (s.nextId :: s.leased) := by simp
      rw [h1]
      exact List.perm_middle
    constructor
    · show ((s.available ++ [s.nextId]) ++ s.leased).Nodup
      apply hperm.nodup_iff.mpr
      apply List.Nodup.cons _ hnd
      intro hmem
      exact absurd (hlt _ hmem) (lt_irrefl _)
    · intro j hj
      show j < s.nextId + 1
      have hj' : j ∈ (s.available ++ [s.nextId]) ++ s.leased := hj
      have := hperm.mem_iff.mp hj'
      rcases List.mem_cons.mp this with h1 | h2
      · omega
      · exact Nat.lt_succ_of_lt (hlt _ h2)

theorem poolInv_cleanup (s : PoolState) (now : Nat) (failIds : List Nat) (h : PoolInv s) :
    PoolInv (cleanup_stale_connections s now failIds).1 := by
  unfold cleanup_stale_connections
  generalize (s.members.filter _) = ids
  induction ids generalizing s with
  | nil => exact h
  | cons i rest ih =>
      exact ih (pool_evict now failIds s i) (poolInv_evict now failIds s i h)

theorem poolInv_lease (s : PoolState) (now : Nat) (tempOk : Bool) (h : PoolInv s) :
    PoolInv (pool_lease s now tempOk).1 := by
  obtain ⟨hnd, hlt⟩ := h
  unfold pool_lease
  cases hav : s.available with
  | cons c rest =>
      rw [hav] at hnd hlt
      have hperm : (rest ++ (s.leased ++ [c])).Perm ((c :: rest) ++ s.leased) := by
        have h1 : List.Perm (s.leased ++ [c]) (c :: s.leased) :=
          List.perm_append_singleton c s.leased
        have h2 : List.Perm (rest ++ (s.leased ++ [c])) (rest ++ (c :: s.leased)) :=
          List.Perm.append_left rest h1
        exact h2.trans List.perm_middle
      refine ⟨hperm.nodup_iff.mpr hnd, ?_⟩
      intro j hj
      exact hlt j (hperm.mem_iff.mp hj)
  | nil =>
      have hnd' : s.leased.Nodup := by rw [hav] at hnd; simpa using hnd
      have hlt' : ∀ i ∈ s.leased, i < s.nextId := by
        intro i hi
        refine hlt i ?_
        rw [hav]
        simpa using hi
      cases tempOk with
      | true =>
          refine ⟨?_, ?_⟩
          · show ([] ++ (s.leased ++ [s.nextId])).Nodup
            simp only [List.nil_append]
            rw [List.nodup_append]
            refine ⟨hnd', List.nodup_singleton _, ?_⟩
            intro a ha hb
            simp only [List.mem_singleton] at hb
            subst hb
            exact absurd (hlt' _ ha) (lt_irrefl _)
          · intro j hj
            show j < s.nextId + 1
            have hj' : j ∈ [] ++ (s.leased ++ [s.nextId]) := hj
            simp only [List.nil_append, List.mem_append, List.mem_singleton] at hj'
            rcases hj' with h1 | h2
            · exact Nat.lt_succ_of_lt (hlt' _ h1)
            · omega
      | false => exact ⟨hnd, hlt⟩

theorem poolInv_release (s : PoolState) (connId : Nat) (stillConn reconnectOk : Bool)
    (now : Nat) (h : PoolInv s) :
    PoolInv (pool_release s connId stillConn reconnectOk now) := by
  obtain ⟨hnd, hlt⟩ := h
  unfold pool_release
  by_cases hm : connId ∈ s.leased
  · have hperm2 : s.leased.Perm (connId :: s.leased.erase connId) :=
      List.perm_cons_erase hm
    have hput : ((s.available ++ [connId]) ++ s.leased.erase connId).Perm
        (s.available ++ s.leased) := by
      have h1 : (s.available ++ [connId]) ++ s.leased.erase connId
          = s.available ++ (connId :: s.leased.erase connId) := by simp
      rw [h1]
      exact List.Perm.append_left _ hperm2.symm
    have hdrop : (s.available ++ s.leased.erase connId).Sublist
        (s.available ++ s.leased) :=
      List.Sublist.append_left (List.erase_sublist connId s.leased) s.available
    rw [if_pos hm]
    cases stillConn with
    | true =>
        refine ⟨hput.nodup_iff.mpr hnd, ?_⟩
        intro j hj
        exact hlt j (hput.mem_iff.mp hj)
    | false =>
        simp only [Bool.false_eq_true, if_false]
        cases reconnectOk with
        | true =>
            refine ⟨hput.nodup_iff.mpr hnd, ?_⟩
            intro j hj
            exact hlt j (hput.mem_iff.mp hj)
        | false =>
            refine ⟨hnd.sublist hdrop, ?_⟩
            intro j hj
            exact hlt j (hdrop.mem hj)
  · rw [if_neg hm]
    exact ⟨hnd, hlt⟩

theorem poolInv_step (s : PoolState) (ev : PoolEvent) (h : PoolInv s) :
    PoolInv (poolStep s ev) := by
  cases ev with
  | lease now tempOk => exact poolInv_lease s now tempOk h
  | release connId stillConn reconnectOk now =>
      exact poolInv_release s connId stillConn reconnectOk now h
  | cleanup now failIds => exact poolInv_cleanup s now failIds h

theorem poolInv_run (s : PoolState) (evs : List PoolEvent) (h : PoolInv s) :
    PoolInv (poolRun s evs) := by
  induction evs generalizing s with
  | nil => exact h
  | cons ev rest ih => exact ih (poolStep s ev) (poolInv_step s ev h)

/-- C9 counterexample: from a one-connection pool, a caller leases the only
session (the queue is then empty) and holds it past the 30-minute idle
threshold.  The cleanup sweep walks `self.connections` without consulting
the lease state: it probes the leased session, finds it stale, disconnects
it and drops it from the pool — operating on a session another caller still
holds, which the claim forbids. -/
theorem c9_counterexample :
    (0 : Nat) ∈ (poolRun (mkPool 1 0) [PoolEvent.lease 0 false]).leased ∧
    (cleanup_stale_connections (poolRun (mkPool 1 0) [PoolEvent.lease 0 false]) 2000 []).2 = [0] ∧
    (cleanup_stale_connections (poolRun (mkPool 1 0) [PoolEvent.lease 0 false]) 2000 []).1.conns.find?
        (fun c => c.id == 0)
      = some { id := 0, connected := false, last_used := 0 } := by
  decide

/-- C9 amended: the lease mechanism itself does give mutual exclusion —
taking a session off the `available_connections` queue removes it, and a
temporary session gets a fresh identity, so in every interleaving of
lease, release and cleanup actions starting from a freshly initialised
pool, the sessions currently on loan are pairwise distinct: `lease` never
hands the same session to two concurrent callers.  (What fails in the
claim is only its parenthetical about the cleanup sweep, which does probe
and disconnect leased sessions — the counterexample.) -/
theorem c9_lease_mutual_exclusion (n now : Nat) (evs : List PoolEvent) :
    (poolRun (mkPool n now) evs).leased.Nodup := by
  have h := poolInv_run (mkPool n now) evs (poolInv_mkPool n now)
  exact h.1.of_append_right

/-! ## The drain loop: frame and trace lemmas (claims C3, C4, C5) -/

theorem filter_map_comm (l : List OpRec) (g : OpRec → OpRec) (p : OpRec → Bool)
    (hg : ∀ o, p (g o) = p o) : (l.map g).filter p = (l.filter p).map g := by
  induction l with
  | nil => rfl
  | cons o rest ih =>
      by_cases h : p o = true
      · simp only [List.map_cons, List.filter_cons, hg, h, if_true, ih, List.map_cons]
      · have h' : p o = false := Bool.eq_false_iff.mpr h
        simp only [List.map_cons, List.filter_cons, hg, h', Bool.false_eq_true, if_false, ih]

theorem updateOp_filter_ne (s : DBState) (i qid : Nat) (f : OpRec → OpRec)
    (hf : ∀ o, (f o).id = o.id) (hne : i ≠ qid) :
    (updateOp s i f).operations.filter (fun o => o.id == qid)
      = s.operations.filter (fun o => o.id == qid) := by
  unfold updateOp
  rw [filter_map_comm]
  · have hid : ∀ o ∈ s.operations.filter (fun o => o.id == qid),
        (if o.id == i then f o else o) = o := by
      intro o ho
      have hq : o.id = qid := by simpa using (List.mem_filter.mp ho).2
      have : (o.id == i) = false := by
        simp [hq]
        exact fun hcon => hne hcon.symm
      rw [this]
      simp
    calc (s.operations.filter (fun o => o.id == qid)).map (fun o => if o.id == i then f o else o)
        = (s.operations.filter (fun o => o.id == qid)).map id := List.map_congr_left hid
      _ = s.operations.filter (fun o => o.id == qid) := List.map_id _
  · intro o
    by_cases h : (o.id == i) = true
    · simp [h, hf]
    · have h' : (o.id == i) = false := Bool.eq_false_iff.mpr h
      simp [h']

theorem updateOp_filter_self (s : DBState) (i : Nat) (f : OpRec → OpRec)
    (hf : ∀ o, (f o).id = o.id) :
    (updateOp s i f).operations.filter (fun o => o.id == i)
      = (s.operations.filter (fun o => o.id == i)).map f := by
  unfold updateOp
  rw [filter_map_comm]
  · apply List.map_congr_left
    intro o ho
    have hq : o.id = i := by simpa using (List.mem_filter.mp ho).2
    simp [hq]
  · intro o
    by_cases h : (o.id == i) = true
    · simp [h, hf]
    · have h' : (o.id == i) = false := Bool.eq_false_iff.mpr h
      simp [h']

theorem updateOp_ids (s : DBState) (i : Nat) (f : OpRec → OpRec)
    (hf : ∀ o, (f o).id = o.id) :
    (updateOp s i f).operations.map (fun o => o.id) = s.operations.map (fun o => o.id) := by
  unfold updateOp
  rw [List.map_map]
  apply List.map_congr_left
  intro o _
  by_cases h : (o.id == i) = true
  · simp [Function.comp, h, hf]
  · have h' : (o.id == i) = false := Bool.eq_false_iff.mpr h
    simp [Function.comp, h']

theorem run_ops_emails (exec : String → String → Bool) (now : String) :
    ∀ (l : List OpRec) (s : DBState), (run_ops exec now l s).1.emails = s.emails := by
  intro l
  induction l with
  | nil => intro s; rfl
  | cons op rest ih =>
      intro s
      unfold run_ops
      by_cases h : op.max_retries ≤ op.retry_count
      · rw [if_pos h]
        exact ih _
      · rw [if_neg h]
        dsimp only
        rw [ih]
        cases exec op.operation_type op.email_uid <;> rfl

theorem run_ops_trace (exec : String → String → Bool) (now : String) :
    ∀ (l : List OpRec) (s : DBState),
      (run_ops exec now l s).2
        = (l.filter (fun o => !decide (o.max_retries ≤ o.retry_count))).map mkCall := by
  intro l
  induction l with
  | nil => intro s; rfl
  | cons op rest ih =>
      intro s
      unfold run_ops
      by_cases h : op.max_retries ≤ op.retry_count
      · rw [if_pos h]
        rw [ih]
        simp [List.filter_cons, h]
      · rw [if_neg h]
        dsimp only
        rw [ih]
        simp [List.filter_cons, h]

theorem run_ops_ids (exec : String → String → Bool) (now : String) :
    ∀ (l : List OpRec) (s : DBState),
      (run_ops exec now l s).1.operations.map (fun o => o.id)
        = s.operations.map (fun o => o.id) := by
  intro l
  induction l with
  | nil => intro s; rfl
  | cons op rest ih =>
      intro s
      unfold run_ops
      by_cases h : op.max_retries ≤ op.retry_count
      · rw [if_pos h, ih, updateOp_ids]
        intro o; rfl
      · rw [if_neg h]
        dsimp only
        rw [ih]
        cases hok : exec op.operation_type op.email_uid
        · simp only [Bool.false_eq_true, if_false]
          exact updateOp_ids s op.id (op_retry now) (fun o => rfl)
        · simp only [if_true]
          exact updateOp_ids s op.id op_succeed (fun o => rfl)

theorem run_ops_filter_ne (exec : String → String → Bool) (now : String) (qid : Nat) :
    ∀ (l : List OpRec), (∀ o ∈ l, o.id ≠ qid) → ∀ (s : DBState),
      (run_ops exec now l s).1.operations.filter (fun o => o.id == qid)
        = s.operations.filter (fun o => o.id == qid) := by
  intro l
  induction l with
  | nil => intro _ s; rfl
  | cons op rest ih =>
      intro hl s
      have hop : op.id ≠ qid := hl op (List.mem_cons_self op rest)
      have hrest : ∀ o ∈ rest, o.id ≠ qid := fun o ho => hl o (List.mem_cons_of_mem op ho)
      unfold run_ops
      by_cases h : op.max_retries ≤ op.retry_count
      · rw [if_pos h, ih hrest, updateOp_filter_ne s op.id qid op_fail (fun o => rfl) hop]
      · rw [if_neg h]
        dsimp only
        rw [ih hrest]
        cases hok : exec op.operation_type op.email_uid
        · simp only [Bool.false_eq_true, if_false]
          exact updateOp_filter_ne s op.id qid (op_retry now) (fun o => rfl) hop
        · simp only [if_true]
          exact updateOp_filter_ne s op.id qid op_succeed (fun o => rfl) hop

theorem updateOp_fail_all (s : DBState) (i : Nat) :
    ∀ o ∈ (updateOp s i op_fail).operations, o.id = i → o.status = OpStatus.failed := by
  intro o ho hq
  rcases List.mem_map.mp ho with ⟨o', _, heq⟩
  by_cases h : (o'.id == i) = true
  · rw [if_pos h] at heq
    rw [← heq]
    rfl
  · rw [if_neg h] at heq
    subst heq
    exact absurd (by simp [hq]) h

theorem updateOp_mem_ne (s : DBState) (i : Nat) (f : OpRec → OpRec)
    (hf : ∀ o, (f o).id = o.id) (qid : Nat) (hne : i ≠ qid) :
    ∀ o ∈ (updateOp s i f).operations, o.id = qid → o ∈ s.operations := by
  intro o ho hq
  rcases List.mem_map.mp ho with ⟨o', ho', heq⟩
  by_cases h : (o'.id == i) = true
  · rw [if_pos h] at heq
    have : o.id = i := by
      rw [← heq, hf]
      simpa using h
    exact absurd (this.symm.trans hq) hne
  · rw [if_neg h] at heq
    subst heq
    exact ho'

theorem run_ops_all_failed (exec : String → String → Bool) (now : String) (qid : Nat) :
    ∀ (l : List OpRec), (∀ o ∈ l, o.id = qid → o.max_retries ≤ o.retry_count) →
    ∀ (s : DBState), (∀ o ∈ s.operations, o.id = qid → (o.status = OpStatus.failed ∨ o ∈ l)) →
    ∀ o ∈ (run_ops exec now l s).1.operations, o.id = qid → o.status = OpStatus.failed := by
  intro l
  induction l with
  | nil =>
      intro _ s hcov o ho hq
      rcases hcov o ho hq with h | h
      · exact h
      · exact absurd h (List.not_mem_nil o)
  | cons op rest ih =>
      intro hceil s hcov
      have hceil' : ∀ o ∈ rest, o.id = qid → o.max_retries ≤ o.retry_count :=
        fun o ho => hceil o (List.mem_cons_of_mem op ho)
      by_cases hid : op.id = qid
      · have hc : op.max_retries ≤ op.retry_count := hceil op (List.mem_cons_self op rest) hid
        unfold run_ops
        rw [if_pos hc]
        apply ih hceil'
        intro o ho hq
        exact Or.inl (updateOp_fail_all s op.id o ho (hid ▸ hq))
      · have hcov' : ∀ (f : OpRec → OpRec), (∀ o, (f o).id = o.id) →
            ∀ o ∈ (updateOp s op.id f).operations, o.id = qid →
              (o.status = OpStatus.failed ∨ o ∈ rest) := by
          intro f hf o ho hq
          have ho' : o ∈ s.operations := updateOp_mem_ne s op.id f hf qid hid o ho hq
          rcases hcov o ho' hq with h | h
          · exact Or.inl h
          · rcases List.mem_cons.mp h with h1 | h2
            · exact absurd (h1 ▸ hq) hid
            · exact Or.inr h2
        unfold run_ops
        by_cases hc : op.max_retries ≤ op.retry_count
        · rw [if_pos hc]
          exact ih hceil' _ (hcov' op_fail (fun o => rfl))
        · rw [if_neg hc]
          dsimp only
          cases hok : exec op.operation_type op.email_uid
          · simp only [Bool.false_eq_true, if_false]
            exact ih hceil' _ (hcov' (op_retry now) (fun o => rfl))
          · simp only [if_true]
            exact ih hceil' _ (hcov' op_succeed (fun o => rfl))

theorem run_ops_unique_result (exec : String → String → Bool) (now : String) (q : OpRec)
    (hbelow : q.retry_count < q.max_retries) :
    ∀ (l : List OpRec), l.filter (fun o => o.id == q.id) = [q] →
    ∀ (s : DBState), s.operations.filter (fun o => o.id == q.id) = [q] →
    (run_ops exec now l s).1.operations.filter (fun o => o.id == q.id)
      = [if exec q.operation_type q.email_uid then op_succeed q else op_retry now q] := by
  intro l
  induction l with
  | nil =>
      intro hl s _
      exact absurd hl (by simp)
  | cons op rest ih =>
      intro hl s hs
      by_cases hid : (op.id == q.id) = true
      · simp only [List.filter_cons, hid, if_true] at hl
        obtain ⟨hop, hrest⟩ := List.cons_eq_cons.mp hl
        subst hop
        have hnc : ¬ (op.max_retries ≤ op.retry_count) := by omega
        unfold run_ops
        rw [if_neg hnc]
        dsimp only
        have hrestne : ∀ o ∈ rest, o.id ≠ op.id := by
          intro o ho hcon
          have hmem : o ∈ rest.filter (fun o => o.id == op.id) :=
            List.mem_filter.mpr ⟨ho, by simp [hcon]⟩
          rw [hrest] at hmem
          exact absurd hmem (List.not_mem_nil o)
        rw [run_ops_filter_ne exec now op.id rest hrestne]
        cases hok : exec op.operation_type op.email_uid
        · simp only [Bool.false_eq_true, if_false]
          rw [updateOp_filter_self s op.id (op_retry now) (fun o => rfl), hs]
          rfl
        · simp only [if_true]
          rw [updateOp_filter_self s op.id op_succeed (fun o => rfl), hs]
          rfl
      · have hid' : (op.id == q.id) = false := Bool.eq_false_iff.mpr hid
        simp only [List.filter_cons, hid', Bool.false_eq_true, if_false] at hl
        have hop : op.id ≠ q.id := by simpa using hid
        unfold run_ops
        by_cases hc : op.max_retries ≤ op.retry_count
        · rw [if_pos hc]
          apply ih hl
          rw [updateOp_filter_ne s op.id q.id op_fail (fun o => rfl) hop]
          exact hs
        · rw [if_neg hc]
          dsimp only
          cases hok : exec op.operation_type op.email_uid
          · simp only [Bool.false_eq_true, if_false]
            apply ih hl
            rw [updateOp_filter_ne s op.id q.id (op_retry now) (fun o => rfl) hop]
            exact hs
          · simp only [if_true]
            apply ih hl
            rw [updateOp_filter_ne s op.id q.id op_succeed (fun o => rfl) hop]
            exact hs

theorem filter_comm_ops (L : List OpRec) (p r : OpRec → Bool) :
    (L.filter p).filter r = (L.filter r).filter p := by
  rw [List.filter_filter, List.filter_filter]
  apply List.filter_congr
  intro o _
  exact Bool.and_comm _ _

/-- The pending snapshot restricted to one primary key: when the whole table
restricted to that key is exactly one pending row, so is the snapshot. -/
theorem snapshot_filter_unique (s : DBState) (q : OpRec)
    (hq : q.status = OpStatus.pending)
    (hs : s.operations.filter (fun o => o.id == q.id) = [q]) :
    (s.operations.filter (fun o => o.status == OpStatus.pending)).filter
        (fun o => o.id == q.id) = [q] := by
  rw [filter_comm_ops, hs]
  simp [List.filter_cons, hq]

theorem process_unique_result (serverOk : String → String → Bool) (now : String)
    (s : DBState) (q : OpRec)
    (hq : q.status = OpStatus.pending) (hbelow : q.retry_count < q.max_retries)
    (hs : s.operations.filter (fun o => o.id == q.id) = [q]) :
    (process_pending_operations serverOk now s).1.operations.filter (fun o => o.id == q.id)
      = [if execute_operation serverOk q.operation_type q.email_uid then op_succeed q
         else op_retry now q] := by
  unfold process_pending_operations
  exact run_ops_unique_result _ now q hbelow _ (snapshot_filter_unique s q hq hs) s hs

theorem process_keeps_failed (serverOk : String → String → Bool) (now : String)
    (s : DBState) (qid : Nat)
    (h : ∀ o ∈ s.operations, o.id = qid → o.status = OpStatus.failed) :
    (∀ o ∈ (process_pending_operations serverOk now s).1.operations,
       o.id = qid → o.status = OpStatus.failed) ∧
    (∀ call ∈ (process_pending_operations serverOk now s).2, call.op_id ≠ qid) := by
  have hsnap : ∀ o ∈ s.operations.filter (fun o => o.status == OpStatus.pending),
      o.id ≠ qid := by
    intro o ho hq
    obtain ⟨ho', hp⟩ := List.mem_filter.mp ho
    rw [h o ho' hq] at hp
    simp at hp
  constructor
  · intro o ho hq
    have hmem : o ∈ (process_pending_operations serverOk now s).1.operations.filter
        (fun o => o.id == qid) := List.mem_filter.mpr ⟨ho, by simp [hq]⟩
    unfold process_pending_operations at hmem
    rw [run_ops_filter_ne _ now qid _ hsnap] at hmem
    exact h o (List.mem_filter.mp hmem).1 hq
  · intro call hc
    unfold process_pending_operations at hc
    rw [run_ops_trace] at hc
    rcases List.mem_map.mp hc with ⟨o, ho, heq⟩
    have ho' := (List.mem_filter.mp ho).1
    rw [← heq]
    exact hsnap o ho'

theorem process_marks_failed (serverOk : String → String → Bool) (now : String)
    (s : DBState) (qid : Nat)
    (h1 : ∀ o ∈ s.operations, o.id = qid →
      o.status = OpStatus.pending ∧ o.max_retries ≤ o.retry_count) :
    (∀ o ∈ (process_pending_operations serverOk now s).1.operations,
       o.id = qid → o.status = OpStatus.failed) ∧
    (∀ call ∈ (process_pending_operations serverOk now s).2, call.op_id ≠ qid) := by
  constructor
  · unfold process_pending_operations
    apply run_ops_all_failed
    · intro o ho hq
      exact (h1 o (List.mem_filter.mp ho).1 hq).2
    · intro o ho hq
      right
      exact List.mem_filter.mpr ⟨ho, by simp [(h1 o ho hq).1]⟩
  · intro call hc
    unfold process_pending_operations at hc
    rw [run_ops_trace] at hc
    rcases List.mem_map.mp hc with ⟨o, ho, heq⟩
    obtain ⟨ho1, ho2⟩ := List.mem_filter.mp ho
    have ho1' := (List.mem_filter.mp ho1).1
    intro hq
    rw [← heq] at hq
    have := (h1 o ho1' hq).2
    simp [this] at ho2

theorem process_ids (serverOk : String → String → Bool) (now : String) (s : DBState) :
    (process_pending_operations serverOk now s).1.operations.map (fun o => o.id)
      = s.operations.map (fun o => o.id) := by
  unfold process_pending_operations
  exact run_ops_ids _ now _ s

theorem drainCycle_keeps_failed (s : DBState) (inp : SweepInput) (qid : Nat)
    (hfresh : ∀ o ∈ inp.newOps, o.id ≠ qid)
    (h : ∀ o ∈ s.operations, o.id = qid → o.status = OpStatus.failed) :
    (∀ o ∈ (drainCycle s inp).1.operations, o.id = qid → o.status = OpStatus.failed) ∧
    (∀ call ∈ (drainCycle s inp).2, call.op_id ≠ qid) := by
  unfold drainCycle
  apply process_keeps_failed
  intro o ho hq
  rcases List.mem_append.mp ho with h1 | h2
  · exact h o h1 hq
  · exact absurd hq (hfresh o h2)

theorem drainCycle_mem_id (s : DBState) (inp : SweepInput) (qid : Nat)
    (hex : qid ∈ s.operations.map (fun o => o.id)) :
    qid ∈ (drainCycle s inp).1.operations.map (fun o => o.id) := by
  unfold drainCycle
  rw [process_ids]
  show qid ∈ (s.operations ++ inp.newOps).map (fun o => o.id)
  rw [List.map_append]
  exact List.mem_append_left _ hex

theorem drainCycles_keeps_failed (inps : List SweepInput) :
    ∀ (s : DBState) (qid : Nat),
    (∀ inp ∈ inps, ∀ o ∈ inp.newOps, o.id ≠ qid) →
    (∀ o ∈ s.operations, o.id = qid → o.status = OpStatus.failed) →
    qid ∈ s.operations.map (fun o => o.id) →
    (∀ o ∈ (drainCycles s inps).1.operations, o.id = qid → o.status = OpStatus.failed) ∧
    (∀ call ∈ (drainCycles s inps).2, call.op_id ≠ qid) ∧
    qid ∈ (drainCycles s inps).1.operations.map (fun o => o.id) := by
  induction inps with
  | nil =>
      intro s qid _ h hexist
      refine ⟨h, ?_, hexist⟩
      intro call hc
      exact absurd hc (List.not_mem_nil call)
  | cons inp rest ih =>
      intro s qid hfresh h hexist
      have hf1 : ∀ o ∈ inp.newOps, o.id ≠ qid := hfresh inp (List.mem_cons_self inp rest)
      have hfr : ∀ inp' ∈ rest, ∀ o ∈ inp'.newOps, o.id ≠ qid :=
        fun i hi => hfresh i (List.mem_cons_of_mem inp hi)
      obtain ⟨hk1, hk2⟩ := drainCycle_keeps_failed s inp qid hf1 h
      have hm1 := drainCycle_mem_id s inp qid hexist
      obtain ⟨ha, hb, hc⟩ := ih (drainCycle s inp).1 qid hfr hk1 hm1
      have hunfold : drainCycles s (inp :: rest)
          = ((drainCycles (drainCycle s inp).1 rest).1,
             (drainCycle s inp).2 ++ (drainCycles (drainCycle s inp).1 rest).2) := rfl
      rw [hunfold]
      refine ⟨ha, ?_, hc⟩
      intro call hcall
      rcases List.mem_append.mp hcall with h1 | h2
      · exact hk2 call h1
      · exact hb call h2

/-! ## Claim C3 -/

/-- C3: every pending operation whose retry count has reached its ceiling is
moved to the terminal `failed` state by the drain worker, without its remote
command being issued — not in this sweep nor in any later enqueue/drain
cycle (later enqueues create fresh rows, so their primary keys differ from
this one); and for an operation below the ceiling whose attempt fails, the
sweep increments its retry count and leaves it `pending`.  The issued-call
trace records every `imap_manager.execute_operation` invocation. -/
theorem c3_retry_ceiling_terminal
    (s : DBState) (opId : Nat) (inp0 : SweepInput) (inps : List SweepInput)
    (hop : ∀ o ∈ s.operations, o.id = opId →
      o.status = OpStatus.pending ∧ o.max_retries ≤ o.retry_count)
    (hex : opId ∈ s.operations.map (fun o => o.id))
    (hfresh : ∀ inp ∈ inp0 :: inps, ∀ o ∈ inp.newOps, o.id ≠ opId) :
    (∀ o ∈ (drainCycles s (inp0 :: inps)).1.operations,
       o.id = opId → o.status = OpStatus.failed) ∧
    (opId ∈ (drainCycles s (inp0 :: inps)).1.operations.map (fun o => o.id)) ∧
    (∀ call ∈ (drainCycles s (inp0 :: inps)).2, call.op_id ≠ opId) ∧
    (∀ q ∈ s.operations, q.status = OpStatus.pending → q.retry_count < q.max_retries →
      (s.operations ++ inp0.newOps).filter (fun o => o.id == q.id) = [q] →
      execute_operation inp0.serverOk q.operation_type q.email_uid = false →
      (drainCycle s inp0).1.operations.filter (fun o => o.id == q.id)
        = [op_retry inp0.now q]) := by
  have hf0 : ∀ o ∈ inp0.newOps, o.id ≠ opId :=
    hfresh inp0 (List.mem_cons_self inp0 inps)
  have hfr : ∀ inp' ∈ inps, ∀ o ∈ inp'.newOps, o.id ≠ opId :=
    fun i hi => hfresh i (List.mem_cons_of_mem inp0 hi)
  have hop' : ∀ o ∈ ({ s with operations := s.operations ++ inp0.newOps } : DBState).operations,
      o.id = opId → o.status = OpStatus.pending ∧ o.max_retries ≤ o.retry_count := by
    intro o ho hq
    rcases List.mem_append.mp ho with h1 | h2
    · exact hop o h1 hq
    · exact absurd hq (hf0 o h2)
  obtain ⟨hA, hB⟩ := process_marks_failed inp0.serverOk inp0.now
    { s with operations := s.operations ++ inp0.newOps } opId hop'
  have hm1 : opId ∈ (drainCycle s inp0).1.operations.map (fun o => o.id) :=
    drainCycle_mem_id s inp0 opId hex
  obtain ⟨ha, hb, hc⟩ := drainCycles_keeps_failed inps (drainCycle s inp0).1 opId hfr hA hm1
  have hunfold : drainCycles s (inp0 :: inps)
      = ((drainCycles (drainCycle s inp0).1 inps).1,
         (drainCycle s inp0).2 ++ (drainCycles (drainCycle s inp0).1 inps).2) := rfl
  rw [hunfold]
  refine ⟨ha, hc, ?_, ?_⟩
  · intro call hcall
    rcases List.mem_append.mp hcall with h1 | h2
    · exact hB call h1
    · exact hb call h2
  · intro q hqmem hqpend hqbelow hqfilter hqexec
    unfold drainCycle
    rw [process_unique_result inp0.serverOk inp0.now _ q hqpend hqbelow hqfilter]
    rw [hqexec]
    rfl

/-- The state and sweeps of the C3 witness: operation 0 is pending at its
ceiling, operation 1 is pending below it; the first sweep's server rejects
everything, the second accepts. -/
def c3s : DBState :=
  { emails := [testEmail], attachments := [], cacheKeys := [],
    operations :=
      [{ id := 0, email_uid := md5 "mid-1", operation_type := "read",
         status := OpStatus.pending, retry_count := 3, max_retries := 3, last_retry := none },
       { id := 1, email_uid := md5 "mid-1", operation_type := "delete",
         status := OpStatus.pending, retry_count := 0, max_retries := 3, last_retry := none }] }

/-- First sweep of the C3 witness: no new enqueues, server rejects all. -/
def c3inp0 : SweepInput := { newOps := [], serverOk := fun _ _ => false, now := "t1" }

/-- Second sweep of the C3 witness: no new enqueues, server accepts all. -/
def c3inp1 : SweepInput := { newOps := [], serverOk := fun _ _ => true, now := "t2" }

/-- Witness for C3 at a concrete input. -/
theorem c3_witness :
    (∀ o ∈ c3s.operations, o.id = 0 →
      o.status = OpStatus.pending ∧ o.max_retries ≤ o.retry_count) ∧
    (∀ o ∈ (drainCycles c3s [c3inp0, c3inp1]).1.operations,
      o.id = 0 → o.status = OpStatus.failed) :=
  ⟨by decide,
    (c3_retry_ceiling_terminal c3s 0 c3inp0 [c3inp1]
      (by decide) (by decide) (by decide)).1⟩

/-! ## Claim C4 -/

theorem find?_map_email (l : List EmailRec) (f : EmailRec → EmailRec)
    (hf : ∀ e, (f e).id = e.id) (eid : String) :
    (l.map f).find? (fun e => e.id == eid) = (l.find? (fun e => e.id == eid)).map f := by
  induction l with
  | nil => rfl
  | cons e rest ih =>
      by_cases h : (e.id == eid) = true
      · simp [List.find?, hf, h]
      · have h' : (e.id == eid) = false := Bool.eq_false_iff.mpr h
        simp [List.find?, hf, h', ih]

theorem getEmail_setEmailRead (s : DBState) (eid : String) (v : Bool) (e : EmailRec)
    (he : getEmail s eid = some e) :
    getEmail (setEmailRead s eid v) eid = some { e with is_read := v } := by
  have he0 : s.emails.find? (fun x => x.id == eid) = some e := he
  have hid' := List.find?_some he0
  have hid : e.id = eid := by simpa using hid'
  unfold getEmail setEmailRead
  unfold getEmail at he
  rw [find?_map_email _ _ ?hu eid, he]
  · simp [hid]
  case hu =>
    intro x
    by_cases h : (x.id == eid) = true
    · rw [if_pos h]
    · rw [if_neg h]

theorem getEmail_mark_as_read (s : DBState) (eid : String) (opId : Nat) (e : EmailRec)
    (he : getEmail s eid = some e) :
    getEmail (mark_as_read s eid opId).1 eid = some { e with is_read := true } := by
  have h1 := getEmail_setEmailRead s eid true e he
  unfold mark_as_read
  rw [he]
  exact h1

theorem getEmail_mark_as_unread (s : DBState) (eid : String) (opId : Nat) (e : EmailRec)
    (he : getEmail s eid = some e) :
    getEmail (mark_as_unread s eid opId).1 eid = some { e with is_read := false } := by
  have h1 := getEmail_setEmailRead s eid false e he
  unfold mark_as_unread
  rw [he]
  exact h1

theorem getEmail_delete_email (s : DBState) (eid : String) (opId : Nat) (e : EmailRec)
    (he : getEmail s eid = some e) :
    getEmail (delete_email s eid opId).1 eid = some { e with is_deleted := true } := by
  have he0 : s.emails.find? (fun x => x.id == eid) = some e := he
  have hid' := List.find?_some he0
  have hid : e.id = eid := by simpa using hid'
  unfold delete_email
  rw [he]
  unfold getEmail at he ⊢
  dsimp only
  rw [find?_map_email _ _ ?hu eid, he]
  · simp [hid]
  case hu =>
    intro x
    by_cases h : (x.id == eid) = true
    · rw [if_pos h]
    · rw [if_neg h]

/-- Dispatch of one accepted local mutation to its endpoint handler in
app.py (`read`, `unread`, `delete`; anything else is a no-op here — the
star endpoint enqueues nothing and is covered by claim C6). -/
def applyMutation (s : DBState) (kind email_id : String) (opId : Nat) : DBState :=
  if kind == "read" then (mark_as_read s email_id opId).1
  else if kind == "unread" then (mark_as_unread s email_id opId).1
  else if kind == "delete" then (delete_email s email_id opId).1
  else s

/-- A sequence of local mutations on the same fingerprint, applied through
the endpoints in order; each pair is (fresh primary key, operation kind). -/
def applyMutations (email_id : String) : DBState → List (Nat × String) → DBState
  | s, [] => s
  | s, m :: rest => applyMutations email_id (applyMutation s m.2 email_id m.1) rest

theorem applyMutation_operations (s : DBState) (kind eid : String) (opId : Nat) (e : EmailRec)
    (he : getEmail s eid = some e)
    (hk : kind = "read" ∨ kind = "unread" ∨ kind = "delete") :
    (applyMutation s kind eid opId).operations = s.operations ++ [newOp opId eid kind] := by
  rcases hk with h | h | h <;> subst h <;>
    simp [applyMutation, mark_as_read, mark_as_unread, delete_email, he, setEmailRead]

theorem applyMutation_preserves (s : DBState) (kind eid : String) (opId : Nat) (e : EmailRec)
    (he : getEmail s eid = some e)
    (hk : kind = "read" ∨ kind = "unread" ∨ kind = "delete") :
    ∃ e', getEmail (applyMutation s kind eid opId) eid = some e' := by
  rcases hk with h | h | h <;> subst h
  · exact ⟨_, by simpa [applyMutation] using getEmail_mark_as_read s eid opId e he⟩
  · exact ⟨_, by simpa [applyMutation] using getEmail_mark_as_unread s eid opId e he⟩
  · exact ⟨_, by simpa [applyMutation] using getEmail_delete_email s eid opId e he⟩

theorem applyMutations_operations (eid : String) :
    ∀ (muts : List (Nat × String)) (s : DBState) (e : EmailRec),
    getEmail s eid = some e →
    (∀ m ∈ muts, m.2 = "read" ∨ m.2 = "unread" ∨ m.2 = "delete") →
    (applyMutations eid s muts).operations
      = s.operations ++ muts.map (fun m => newOp m.1 eid m.2) := by
  intro muts
  induction muts with
  | nil => intro s e _ _; simp [applyMutations]
  | cons m rest ih =>
      intro s e he hk
      have hk1 := hk m (List.mem_cons_self m rest)
      have hops := applyMutation_operations s m.2 eid m.1 e he hk1
      obtain ⟨e', he'⟩ := applyMutation_preserves s m.2 eid m.1 e he hk1
      show (applyMutations eid (applyMutation s m.2 eid m.1) rest).operations = _
      rw [ih _ e' he' (fun m' hm' => hk m' (List.mem_cons_of_mem m hm')), hops]
      simp

theorem trace_filter_uid (L : List OpRec) (fp : String) :
    (L.map mkCall).filter (fun c => c.email_uid == fp)
      = (L.filter (fun o => o.email_uid == fp)).map mkCall := by
  induction L with
  | nil => rfl
  | cons o rest ih =>
      by_cases h : (o.email_uid == fp) = true
      · simp only [List.map_cons, List.filter_cons, mkCall, h, if_true, ih]
      · have h' : (o.email_uid == fp) = false := Bool.eq_false_iff.mpr h
        simp only [List.map_cons, List.filter_cons, mkCall, h', Bool.false_eq_true, if_false, ih]

/-- C4: a sequence of local mutations on the same message fingerprint,
enqueued through the endpoints in order, is drained by one sweep as one
`execute_operation` call per operation, in enqueue (creation) order, with
no coalescing: the remote backend observes exactly the enqueued kinds in
the same relative order.  (The table rows are modelled in insertion order;
the code's `filter_by(status='pending')` query has no `ORDER BY`, so this
is the order the default SQLite row order gives it.) -/
theorem c4_drain_in_enqueue_order (s : DBState) (fp : String) (e : EmailRec)
    (muts : List (Nat × String)) (serverOk : String → String → Bool) (now : String)
    (he : getEmail s fp = some e)
    (hk : ∀ m ∈ muts, m.2 = "read" ∨ m.2 = "unread" ∨ m.2 = "delete")
    (hnp : ∀ o ∈ s.operations, o.status = OpStatus.pending → o.email_uid ≠ fp) :
    (process_pending_operations serverOk now (applyMutations fp s muts)).2.filter
        (fun c => c.email_uid == fp)
      = muts.map (fun m => { op_id := m.1, operation_type := m.2, email_uid := fp }) := by
  have hops := applyMutations_operations fp muts s e he hk
  unfold process_pending_operations
  rw [run_ops_trace, hops]
  rw [List.filter_append]
  have hnew_pend : (muts.map (fun m => newOp m.1 fp m.2)).filter
      (fun o => o.status == OpStatus.pending) = muts.map (fun m => newOp m.1 fp m.2) := by
    apply List.filter_eq_self.mpr
    intro o ho
    rcases List.mem_map.mp ho with ⟨m, _, heq⟩
    rw [← heq]
    rfl
  rw [hnew_pend, List.filter_append]
  have hnew_below : (muts.map (fun m => newOp m.1 fp m.2)).filter
      (fun o => !decide (o.max_retries ≤ o.retry_count))
      = muts.map (fun m => newOp m.1 fp m.2) := by
    apply List.filter_eq_self.mpr
    intro o ho
    rcases List.mem_map.mp ho with ⟨m, _, heq⟩
    rw [← heq]
    rfl
  rw [hnew_below, List.map_append, List.filter_append, trace_filter_uid, trace_filter_uid]
  have hleft : ((s.operations.filter (fun o => o.status == OpStatus.pending)).filter
      (fun o => !decide (o.max_retries ≤ o.retry_count))).filter
      (fun o => o.email_uid == fp) = [] := by
    apply List.filter_eq_nil_iff.mpr
    intro o ho
    obtain ⟨ho1, _⟩ := List.mem_filter.mp ho
    obtain ⟨ho2, hpend⟩ := List.mem_filter.mp ho1
    have : o.status = OpStatus.pending := by
      have := hpend
      simp at this
      exact this
    have hne := hnp o ho2 this
    simp [hne]
  have hright : (muts.map (fun m => newOp m.1 fp m.2)).filter
      (fun o => o.email_uid == fp) = muts.map (fun m => newOp m.1 fp m.2) := by
    apply List.filter_eq_self.mpr
    intro o ho
    rcases List.mem_map.mp ho with ⟨m, _, heq⟩
    rw [← heq]
    simp [newOp]
  rw [hleft, hright]
  simp only [List.map_nil, List.nil_append, List.map_map]
  rfl

/-- Witness for C4 at a concrete input: mark-read then delete on the same
fingerprint, drained as two remote calls in that order. -/
theorem c4_witness :
    getEmail oneEmailDB testEmail.id = some testEmail ∧
    (process_pending_operations (fun _ _ => true) "t"
        (applyMutations testEmail.id oneEmailDB [(0, "read"), (1, "delete")])).2.filter
        (fun c => c.email_uid == testEmail.id)
      = [{ op_id := 0, operation_type := "read", email_uid := testEmail.id },
         { op_id := 1, operation_type := "delete", email_uid := testEmail.id }] :=
  ⟨by decide,
    by
      rw [c4_drain_in_enqueue_order oneEmailDB testEmail.id testEmail
        [(0, "read"), (1, "delete")] (fun _ _ => true) "t"
        (by decide) (by decide) (by decide)]
      rfl⟩

/-! ## Claim C5 -/

theorem process_emails (serverOk : String → String → Bool) (now : String) (s : DBState) :
    (process_pending_operations serverOk now s).1.emails = s.emails := by
  unfold process_pending_operations
  exact run_ops_emails _ now _ s

theorem is_email_exists_of_getEmail (s : DBState) (i : String) (e : EmailRec)
    (h : getEmail s i = some e) : is_email_exists s i = true := by
  have h0 : s.emails.find? (fun x => x.id == i) = some e := h
  have hm := List.mem_of_find?_eq_some h0
  have hp := List.find?_some h0
  exact List.any_eq_true.mpr ⟨e, hm, hp⟩

theorem mark_as_read_operations (s : DBState) (eid : String) (opId : Nat) (e : EmailRec)
    (he : getEmail s eid = some e) :
    (mark_as_read s eid opId).1.operations = s.operations ++ [newOp opId eid "read"] := by
  simp [mark_as_read, he, setEmailRead]

/-- C5: a message re-fetched while a local mark-read is still pending does
not lose the locally-set flag.  After `mark_as_read` enqueues the pending
operation, a reconciliation pass stores the same message again with the
remote view `is_read = false`; the upsert finds the fingerprint present and
changes nothing, so the record's read flag stays `true`; and after the
drain (whose remote call succeeds) the flag is still `true` and the pending
operation is marked `success`. -/
theorem c5_local_read_wins
    (s : DBState) (d : EmailData) (eid : String) (opId : Nat)
    (parse : String → Option ParsedEmail) (nowStore nowDrain : String)
    (serverOk : String → String → Bool) (e : EmailRec)
    (he : getEmail s eid = some e)
    (hid : generate_email_id d.message_id d.uid nowStore = eid)
    (_hunread : d.is_read = false)
    (hfresh : ∀ o ∈ s.operations, o.id ≠ opId)
    (hok : serverOk "read" eid = true) :
    (store_email_safely parse nowStore (mark_as_read s eid opId).1 d).2
        = (mark_as_read s eid opId).1 ∧
    (∃ e', getEmail (process_pending_operations serverOk nowDrain
        (store_email_safely parse nowStore (mark_as_read s eid opId).1 d).2).1 eid
        = some e' ∧ e'.is_read = true) ∧
    (process_pending_operations serverOk nowDrain
        (store_email_safely parse nowStore (mark_as_read s eid opId).1 d).2).1.operations.filter
        (fun o => o.id == opId) = [op_succeed (newOp opId eid "read")] := by
  have hup := getEmail_mark_as_read s eid opId e he
  have hex : is_email_exists (mark_as_read s eid opId).1
      (generate_email_id d.message_id d.uid nowStore) = true := by
    rw [hid]
    exact is_email_exists_of_getEmail _ eid _ hup
  have hstore : (store_email_safely parse nowStore (mark_as_read s eid opId).1 d).2
      = (mark_as_read s eid opId).1 := by
    rw [store_unchanged_of_exists parse nowStore _ d hex]
  refine ⟨hstore, ?_, ?_⟩
  · rw [hstore]
    refine ⟨{ e with is_read := true }, ?_, rfl⟩
    have hframe : getEmail (process_pending_operations serverOk nowDrain
        (mark_as_read s eid opId).1).1 eid = getEmail (mark_as_read s eid opId).1 eid := by
      unfold getEmail
      rw [process_emails]
    rw [hframe]
    exact hup
  · rw [hstore]
    have hqfil : (mark_as_read s eid opId).1.operations.filter (fun o => o.id == opId)
        = [newOp opId eid "read"] := by
      rw [mark_as_read_operations s eid opId e he, List.filter_append]
      have h1 : s.operations.filter (fun o => o.id == opId) = [] :=
        List.filter_eq_nil_iff.mpr (by intro o ho; simp [hfresh o ho])
      rw [h1]
      simp [newOp]
    have hres := process_unique_result serverOk nowDrain (mark_as_read s eid opId).1
      (newOp opId eid "read") rfl (by show (0 : Nat) < 3; decide) hqfil
    have hres2 : (process_pending_operations serverOk nowDrain
        (mark_as_read s eid opId).1).1.operations.filter (fun o => o.id == opId)
        = [if execute_operation serverOk "read" eid = true
           then op_succeed (newOp opId eid "read")
           else op_retry nowDrain (newOp opId eid "read")] := hres
    rw [hres2]
    simp [execute_operation, hok]

/-- The re-fetched remote view of the C5 witness: same message id, seen as
unread on the server. -/
def c5refetch : EmailData :=
  { message_id := "mid-1", uid := "7", uid_validity := "100",
    raw_content := "raw", is_read := false }

/-- Witness for C5 at a concrete input. -/
theorem c5_witness :
    getEmail oneEmailDB testEmail.id = some testEmail ∧
    (∃ e', getEmail (process_pending_operations (fun _ _ => true) "t2"
        (store_email_safely parseAlways "t1" (mark_as_read oneEmailDB testEmail.id 0).1
          c5refetch).2).1 testEmail.id = some e' ∧ e'.is_read = true) :=
  ⟨by decide,
    (c5_local_read_wins oneEmailDB c5refetch testEmail.id 0 parseAlways "t1" "t2"
      (fun _ _ => true) testEmail (by decide) (by decide) (by decide)
      (by decide) rfl).2.1⟩
